import Mathlib

/-!
# Verification of the question-bank content store

Shallow embedding of `src/question_bank/database.py` (the persistence layer of
the question-bank MCP server) and proofs about its operations.

Modelling conventions:
* The SQLite database is a `DbState` record of five relations (lists of rows),
  mirroring the schema created by `init_database`.
* Each Python store function becomes a Lean function on `DbState`.  A function
  that can raise a `sqlite3` error returns `Except DbError ...`; since every
  Python function commits only at the very end and an uncaught exception causes
  a rollback of the whole connection, an `error` result leaves the state
  unobserved (no partial mutation), which the embedding reflects by not
  returning a state in the error case.
* `TEXT` timestamps (`CURRENT_TIMESTAMP` / `datetime.now().isoformat()`) are
  ISO strings whose lexicographic order is chronological; they are modelled as
  integer ticks, and "now" is an explicit parameter.
* The `options` TEXT column holds `json.dumps` of a Python list of strings.
  `json.loads (json.dumps l) = l` for lists of strings, and `json.dumps` never
  produces the empty string, so the column is modelled by the decoded value
  `Option (List String)`; the Python truthiness tests (`if options`,
  `if question['options']`) are modelled explicitly where they occur.
* `REAL` columns are modelled as `ℚ`; the concrete literals used by the claims
  compare identically as floats and as rationals.
-/

/-- A row of `question_banks`. -/
structure Bank where
  id : String
  name : String
  description : Option String
  subject : String
  gradeLevel : Option String
  deriving DecidableEq, Repr

/-- A row of `topics`. -/
structure Topic where
  id : String
  bankId : String
  name : String
  parentId : Option String
  description : Option String
  deriving DecidableEq, Repr

/-- A row of `questions` (all columns of the schema in `init_database`). -/
structure Question where
  id : String
  bankId : String
  questionType : String
  stem : String
  options : Option (List String)
  correctAnswer : Option String
  explanation : Option String
  difficulty : ℚ
  bloomLevel : Option String
  estimatedTimeSeconds : Int
  points : Int
  status : String
  author : Option String
  createdAt : Int
  updatedAt : Int
  timesUsed : Int
  timesCorrect : Int
  avgTimeSeconds : Option ℚ
  discriminationIndex : Option ℚ
  deriving DecidableEq, Repr

/-- The whole SQLite file: the four entity/join relations plus banks.
`questionTopics` rows are `(question_id, topic_id)` pairs; `questionTags`
rows are `(question_id, tag)` pairs.  Both have a composite primary key. -/
structure DbState where
  banks : List Bank
  topics : List Topic
  questions : List Question
  questionTopics : List (String × String)
  questionTags : List (String × String)
  deriving DecidableEq, Repr

/-- Errors raised by the sqlite3 driver.  `operationalError` covers
`sqlite3.OperationalError` (e.g. "no such column" when executing a statement
that names a column the table does not have); `integrityError` covers
`sqlite3.IntegrityError` (UNIQUE / PRIMARY KEY / FOREIGN KEY violations). -/
inductive DbError where
  | operationalError : DbError
  | integrityError : DbError
  deriving DecidableEq, Repr

/-- A dynamically typed SQL parameter / Python value, as passed through the
`**updates` kwargs of `update_question`.  `vList` is a Python list of strings
(the pre-serialization form of `options`, `topics` and `tags`). -/
inductive Value where
  | vStr : String → Value
  | vNum : ℚ → Value
  | vInt : Int → Value
  | vNull : Value
  | vList : List String → Value
  deriving DecidableEq, Repr

/-- Python's `str.lower()`.  Lean's `String.toLower` is definitionally opaque
to kernel reduction (its `mapAux` recursion is well-founded), so the embedding
maps `Char.toLower` over the characters, which agrees with Python's lowering
on the ASCII tags this repository manipulates. -/
def pyLower (s : String) : String := String.mk (s.data.map Char.toLower)

/-- Database invariants guaranteed by the schema: primary keys are unique and
foreign keys reference existing rows (`PRAGMA foreign_keys = ON`). -/
def DbState.WF (st : DbState) : Prop :=
  (st.banks.map Bank.id).Nodup ∧
  (st.topics.map Topic.id).Nodup ∧
  (st.questions.map Question.id).Nodup ∧
  st.questionTopics.Nodup ∧
  st.questionTags.Nodup ∧
  (∀ l ∈ st.questionTopics,
    l.1 ∈ st.questions.map Question.id ∧ l.2 ∈ st.topics.map Topic.id) ∧
  (∀ r ∈ st.questionTags, r.1 ∈ st.questions.map Question.id)

instance (st : DbState) : Decidable st.WF := by
  unfold DbState.WF
  infer_instance

/-- The result of `get_question`: the question row hydrated with its topics
(`(id, name)` pairs, in `topics`-table scan order) and tags. -/
structure HydratedQuestion where
  question : Question
  topics : List (String × String)
  tags : List String
  deriving DecidableEq, Repr

/-- `get_question(question_id)` from `database.py`: the first `questions` row
with the given id, plus the joined topics and the tags.  `options` is stored
decoded (see the header comment), so the `json.loads(...) if ... else None`
step is the identity here. -/
def get_question (st : DbState) (questionId : String) : Option HydratedQuestion :=
  match st.questions.find? (fun q => q.id == questionId) with
  | none => none
  | some q =>
      some { question := q
             topics := (st.topics.filter (fun t =>
                 st.questionTopics.any (fun l => l.1 == questionId && l.2 == t.id))).map
               (fun t => (t.id, t.name))
             tags := (st.questionTags.filter (fun r => r.1 == questionId)).map Prod.snd }

/-- The `INSERT OR IGNORE INTO question_topics` loop of `create_question`:
a `(question_id, topic_id)` primary-key conflict is silently ignored, but a
FOREIGN KEY violation (unknown topic or question id) is not subject to the
`OR IGNORE` conflict resolution and raises `IntegrityError`. -/
def insertTopicLinksIgnore (st : DbState) (qid : String) :
    List String → Except DbError DbState
  | [] => Except.ok st
  | tid :: rest =>
      if st.questionTopics.any (fun l => l.1 == qid && l.2 == tid) then
        insertTopicLinksIgnore st qid rest
      else if !(st.topics.any (fun t => t.id == tid)) then
        Except.error DbError.integrityError
      else if !(st.questions.any (fun q => q.id == qid)) then
        Except.error DbError.integrityError
      else
        insertTopicLinksIgnore
          { st with questionTopics := st.questionTopics ++ [(qid, tid)] } qid rest

/-- The `INSERT OR IGNORE INTO question_tags` loop of `create_question`:
tags are lowercased; a duplicate `(question_id, tag)` pair is silently
ignored; a FOREIGN KEY violation raises `IntegrityError`. -/
def insertTagsIgnore (st : DbState) (qid : String) :
    List String → Except DbError DbState
  | [] => Except.ok st
  | tg :: rest =>
      if st.questionTags.any (fun r => r.1 == qid && r.2 == pyLower tg) then
        insertTagsIgnore st qid rest
      else if !(st.questions.any (fun q => q.id == qid)) then
        Except.error DbError.integrityError
      else
        insertTagsIgnore
          { st with questionTags := st.questionTags ++ [(qid, pyLower tg)] } qid rest

/-- The plain `INSERT INTO question_topics` loop of `update_question`
(no `OR IGNORE`): a duplicate pair or a dangling foreign key raises
`IntegrityError`. -/
def insertTopicLinksStrict (st : DbState) (qid : String) :
    List String → Except DbError DbState
  | [] => Except.ok st
  | tid :: rest =>
      if st.questionTopics.any (fun l => l.1 == qid && l.2 == tid) then
        Except.error DbError.integrityError
      else if !(st.topics.any (fun t => t.id == tid)) then
        Except.error DbError.integrityError
      else if !(st.questions.any (fun q => q.id == qid)) then
        Except.error DbError.integrityError
      else
        insertTopicLinksStrict
          { st with questionTopics := st.questionTopics ++ [(qid, tid)] } qid rest

/-- The plain `INSERT INTO question_tags` loop of `update_question`
(no `OR IGNORE`): tags are lowercased; a duplicate `(question_id, tag)` pair
or a dangling foreign key raises `IntegrityError`. -/
def insertTagsStrict (st : DbState) (qid : String) :
    List String → Except DbError DbState
  | [] => Except.ok st
  | tg :: rest =>
      if st.questionTags.any (fun r => r.1 == qid && r.2 == pyLower tg) then
        Except.error DbError.integrityError
      else if !(st.questions.any (fun q => q.id == qid)) then
        Except.error DbError.integrityError
      else
        insertTagsStrict
          { st with questionTags := st.questionTags ++ [(qid, pyLower tg)] } qid rest

/-- The `questions` row inserted by `create_question`: `options` is stored
through the Python truthiness test `json.dumps(options) if options else None`
(absent and empty both store NULL); timestamps default to now; the usage
statistics default to their schema values. -/
def newQuestionRow (questionId bankId questionType stem correctAnswer : String)
    (options : Option (List String)) (explanation : Option String)
    (difficulty : ℚ) (bloomLevel : Option String)
    (estimatedTimeSeconds points : Int) (author : Option String)
    (status : String) (now : Int) : Question :=
  { id := questionId, bankId := bankId, questionType := questionType
    stem := stem
    options :=
      match options with
      | some l => if l.isEmpty then none else some l
      | none => none
    correctAnswer := some correctAnswer
    explanation := explanation, difficulty := difficulty, bloomLevel := bloomLevel
    estimatedTimeSeconds := estimatedTimeSeconds, points := points
    status := status, author := author, createdAt := now, updatedAt := now
    timesUsed := 0, timesCorrect := 0, avgTimeSeconds := none
    discriminationIndex := none }

/-- `create_question` from `database.py`.  Inserts the row (PRIMARY KEY and
bank FOREIGN KEY checked by the engine), stores `options` through the Python
truthiness test `json.dumps(options) if options else None` (so `None` and the
empty list both store NULL), then runs the two `INSERT OR IGNORE` loops and
returns `get_question(question_id)`. -/
def create_question (st : DbState) (questionId bankId questionType stem : String)
    (correctAnswer : String) (options : Option (List String))
    (explanation : Option String) (difficulty : ℚ) (bloomLevel : Option String)
    (estimatedTimeSeconds points : Int) (topics tags : Option (List String))
    (author : Option String) (status : String) (now : Int) :
    Except DbError (DbState × Option HydratedQuestion) :=
  if st.questions.any (fun q => q.id == questionId) then
    Except.error DbError.integrityError
  else if !(st.banks.any (fun b => b.id == bankId)) then
    Except.error DbError.integrityError
  else
    let st1 := { st with questions := st.questions ++
      [newQuestionRow questionId bankId questionType stem correctAnswer options
        explanation difficulty bloomLevel estimatedTimeSeconds points author
        status now] }
    -- `if topics:` / `if tags:`: iterating an absent or empty list inserts nothing
    match insertTopicLinksIgnore st1 questionId (topics.getD []) with
    | Except.error e => Except.error e
    | Except.ok st2 =>
        match insertTagsIgnore st2 questionId (tags.getD []) with
        | Except.error e => Except.error e
        | Except.ok st3 => Except.ok (st3, get_question st3 questionId)

/-- The columns of the `questions` table, as declared in `init_database`.
A SET clause naming anything else makes the UPDATE statement fail to prepare
("no such column"). -/
def questionColumns : List String :=
  ["id", "bank_id", "question_type", "stem", "options", "correct_answer",
   "explanation", "difficulty", "bloom_level", "estimated_time_seconds",
   "points", "status", "author", "created_at", "updated_at", "times_used",
   "times_correct", "avg_time_seconds", "discrimination_index"]

/-- Assigning one `column = value` pair of a SET clause to a row.  Returns
`none` for a column the `questions` table does not have.  The stored value
shapes follow the schema's column types; all callers in the repository pass
type-matching values. -/
def setColumn (qn : Question) (k : String) (v : Value) : Option Question :=
  if k == "id" then match v with | Value.vStr s => some { qn with id := s } | _ => none
  else if k == "bank_id" then match v with | Value.vStr s => some { qn with bankId := s } | _ => none
  else if k == "question_type" then match v with | Value.vStr s => some { qn with questionType := s } | _ => none
  else if k == "stem" then match v with | Value.vStr s => some { qn with stem := s } | _ => none
  else if k == "options" then
    match v with
    | Value.vList l => some { qn with options := some l }
    | Value.vNull => some { qn with options := none }
    | _ => none
  else if k == "correct_answer" then
    match v with
    | Value.vStr s => some { qn with correctAnswer := some s }
    | Value.vNull => some { qn with correctAnswer := none }
    | _ => none
  else if k == "explanation" then
    match v with
    | Value.vStr s => some { qn with explanation := some s }
    | Value.vNull => some { qn with explanation := none }
    | _ => none
  else if k == "difficulty" then match v with | Value.vNum d => some { qn with difficulty := d } | _ => none
  else if k == "bloom_level" then
    match v with
    | Value.vStr s => some { qn with bloomLevel := some s }
    | Value.vNull => some { qn with bloomLevel := none }
    | _ => none
  else if k == "estimated_time_seconds" then match v with | Value.vInt n => some { qn with estimatedTimeSeconds := n } | _ => none
  else if k == "points" then match v with | Value.vInt n => some { qn with points := n } | _ => none
  else if k == "status" then match v with | Value.vStr s => some { qn with status := s } | _ => none
  else if k == "author" then
    match v with
    | Value.vStr s => some { qn with author := some s }
    | Value.vNull => some { qn with author := none }
    | _ => none
  else if k == "created_at" then match v with | Value.vInt n => some { qn with createdAt := n } | _ => none
  else if k == "updated_at" then match v with | Value.vInt n => some { qn with updatedAt := n } | _ => none
  else if k == "times_used" then match v with | Value.vInt n => some { qn with timesUsed := n } | _ => none
  else if k == "times_correct" then match v with | Value.vInt n => some { qn with timesCorrect := n } | _ => none
  else if k == "avg_time_seconds" then
    match v with
    | Value.vNum d => some { qn with avgTimeSeconds := some d }
    | Value.vNull => some { qn with avgTimeSeconds := none }
    | _ => none
  else if k == "discrimination_index" then
    match v with
    | Value.vNum d => some { qn with discriminationIndex := some d }
    | Value.vNull => some { qn with discriminationIndex := none }
    | _ => none
  else none

/-- Applying a whole SET clause, left to right, to one row. -/
def applyColumns (qn : Question) : List (String × Value) → Option Question
  | [] => some qn
  | (k, v) :: rest =>
      match setColumn qn k v with
      | none => none
      | some qn2 => applyColumns qn2 rest

/-- Executing `UPDATE questions SET ... WHERE id = ?`: every row whose id
matches is rewritten by the SET clause; other rows are untouched. -/
def applyAll : List Question → String → List (String × Value) →
    Except DbError (List Question)
  | [], _, _ => Except.ok []
  | q :: rest, qid, kvs =>
      match (if q.id == qid then applyColumns q kvs else some q) with
      | none => Except.error DbError.operationalError
      | some q2 =>
          match applyAll rest qid kvs with
          | Except.error e => Except.error e
          | Except.ok rest2 => Except.ok (q2 :: rest2)

/-- `dict.pop(k, None)` on a kwargs dict (association list with unique keys):
the bound value, if any, and the dict without that key. -/
def popKey (kvs : List (String × Value)) (k : String) :
    Option Value × List (String × Value) :=
  match kvs.find? (fun kv => kv.1 == k) with
  | some kv => (some kv.2, kvs.filter (fun kv2 => kv2.1 != k))
  | none => (none, kvs)

/-- `d[k] = v` on a kwargs dict: replaces the value in place if the key is
already bound, otherwise appends the binding. -/
def dictSet (kvs : List (String × Value)) (k : String) (v : Value) :
    List (String × Value) :=
  if kvs.any (fun kv => kv.1 == k) then
    kvs.map (fun kv => if kv.1 == k then (k, v) else kv)
  else kvs ++ [(k, v)]

/-- The `if updates:` scalar phase of `update_question`: if any scalar update
remains after popping `topics`/`tags`, set `updated_at` to now and execute the
dynamically built `UPDATE questions SET {keys} = ? WHERE id = ?`. -/
def scalarUpdateStep (st : DbState) (questionId : String)
    (u2 : List (String × Value)) (now : Int) : Except DbError DbState :=
  if u2.isEmpty then Except.ok st
  else
    let u3 := dictSet u2 "updated_at" (Value.vInt now)
    if u3.all (fun kv => questionColumns.contains kv.1) then
      match applyAll st.questions questionId u3 with
      | Except.ok rows => Except.ok { st with questions := rows }
      | Except.error e => Except.error e
    else Except.error DbError.operationalError

/-- The `if topics is not None:` relation-replacement phase of
`update_question`: delete all membership rows of the question, then plain
`INSERT` each supplied topic id. -/
def topicsStep (st : DbState) (questionId : String) :
    Option Value → Except DbError DbState
  | none => Except.ok st
  | some Value.vNull => Except.ok st
  | some (Value.vList l) =>
      insertTopicLinksStrict
        { st with questionTopics :=
            st.questionTopics.filter (fun r => r.1 != questionId) }
        questionId l
  | some _ => Except.error DbError.operationalError

/-- The `if tags is not None:` relation-replacement phase of
`update_question`: delete all tag rows of the question, then plain `INSERT`
each supplied tag, lowercased. -/
def tagsStep (st : DbState) (questionId : String) :
    Option Value → Except DbError DbState
  | none => Except.ok st
  | some Value.vNull => Except.ok st
  | some (Value.vList l) =>
      insertTagsStrict
        { st with questionTags :=
            st.questionTags.filter (fun r => r.1 != questionId) }
        questionId l
  | some _ => Except.error DbError.operationalError

/-- `update_question(question_id, **updates)` from `database.py`:
pops `topics` and `tags` out of the kwargs; if any scalar update remains,
sets `updated_at` to now and executes a dynamically built
`UPDATE questions SET {keys} = ? WHERE id = ?` — the key names are
interpolated into the SQL unchecked, so an unknown column name surfaces as a
`sqlite3.OperationalError` when the statement is prepared (there is no
allow-list and no `InvalidField`/`ValueError` in this function); then, if
`topics` (resp. `tags`) was supplied and not `None`, deletes all membership
(resp. tag) rows of the question and re-inserts the supplied list with plain
`INSERT`s; finally returns `get_question(question_id)`.  The `json.dumps` of
a supplied non-null `options` list is the identity under the decoded-column
convention.  A supplied non-list, non-null `topics`/`tags` value (which the
Python would misuse as an iterable) is modelled as an error; no caller in the
repository supplies one. -/
def update_question (st : DbState) (questionId : String)
    (updates : List (String × Value)) (now : Int) :
    Except DbError (DbState × Option HydratedQuestion) :=
  match scalarUpdateStep st questionId
      (popKey (popKey updates "topics").2 "tags").2 now with
  | Except.error e => Except.error e
  | Except.ok st1 =>
      match topicsStep st1 questionId (popKey updates "topics").1 with
      | Except.error e => Except.error e
      | Except.ok st2 =>
          match tagsStep st2 questionId
              (popKey (popKey updates "topics").2 "tags").1 with
          | Except.error e => Except.error e
          | Except.ok st3 => Except.ok (st3, get_question st3 questionId)

/-- Modelled from the spec: `server.py` and the tests call
`db.delete_question_bank`, but `database.py` under `src/` does not define it.
Per the spec, "deleteBank(id) → boolean: true if a row was removed.  Cascades:
removes all Topics and Questions under the bank and their join-table rows,
atomically (single transaction)" — realized by `DELETE FROM question_banks
WHERE id = ?` under the `ON DELETE CASCADE` foreign keys that `init_database`
declares (bank→topic, bank→question, question→links, question→tags,
topic→links) and `ON DELETE SET NULL` for topic→parent-topic. -/
def delete_question_bank (st : DbState) (bankId : String) : DbState × Bool :=
  let existed := st.banks.any (fun b => b.id == bankId)
  let deadTopics := (st.topics.filter (fun t => t.bankId == bankId)).map Topic.id
  let deadQuestions := (st.questions.filter (fun q => q.bankId == bankId)).map Question.id
  ({ banks := st.banks.filter (fun b => b.id != bankId)
     topics := (st.topics.filter (fun t => t.bankId != bankId)).map
       (fun t => match t.parentId with
         | some p => if deadTopics.contains p then { t with parentId := none } else t
         | none => t)
     questions := st.questions.filter (fun q => q.bankId != bankId)
     questionTopics := st.questionTopics.filter
       (fun l => !(deadQuestions.contains l.1) && !(deadTopics.contains l.2))
     questionTags := st.questionTags.filter
       (fun r => !(deadQuestions.contains r.1)) },
   existed)

/-- Modelled from the spec: `server.py` and the tests call `db.delete_topic`,
but `database.py` under `src/` does not define it.  Per the spec,
"deleteTopic(id) → boolean; removes the Topic row and all its
question-membership links (Questions unaffected)" — realized by
`DELETE FROM topics WHERE id = ?` under the schema's `ON DELETE CASCADE` for
`question_topics.topic_id` and `ON DELETE SET NULL` for `topics.parent_id`. -/
def delete_topic (st : DbState) (topicId : String) : DbState × Bool :=
  let existed := st.topics.any (fun t => t.id == topicId)
  ({ st with
     topics := (st.topics.filter (fun t => t.id != topicId)).map
       (fun t => if t.parentId == some topicId then { t with parentId := none } else t)
     questionTopics := st.questionTopics.filter (fun l => l.2 != topicId) },
   existed)

/-- The optional filters of `search_questions`, with the SQL `LIMIT`/`OFFSET`
parameters. -/
structure SearchFilters where
  bankId : Option String
  topicId : Option String
  questionType : Option String
  bloomLevel : Option String
  difficultyMin : Option ℚ
  difficultyMax : Option ℚ
  status : Option String
  tags : Option (List String)
  searchText : Option String
  limit : Int
  offset : Int
  deriving Repr

/-- No filters, default pagination (`limit=50, offset=0` as in the Python
signature). -/
def noFilters : SearchFilters :=
  { bankId := none, topicId := none, questionType := none, bloomLevel := none
    difficultyMin := none, difficultyMax := none, status := none, tags := none
    searchText := none, limit := 50, offset := 0 }

/-- Python truthiness of an optional string (`if bank_id:` etc.). -/
def truthyStr : Option String → Bool
  | some s => !s.isEmpty
  | none => false

/-- Python truthiness of an optional list (`if tags:`). -/
def truthyList : Option (List String) → Bool
  | some l => !l.isEmpty
  | none => false

/-- Contiguous-sublist test on character lists. -/
def listInfixOf (pat : List Char) : List Char → Bool
  | [] => pat.isEmpty
  | c :: rest => pat.isPrefixOf (c :: rest) || listInfixOf pat rest

/-- Case-insensitive substring test, the semantics of SQLite's
`LIKE '%text%'` on ASCII text. -/
def likeContains (pat s : String) : Bool :=
  listInfixOf (pyLower pat).toList (pyLower s).toList

/-- The FROM/JOIN part of the `search_questions` query: one row per question,
multiplied by its membership rows when `topic_id` is truthy (INNER JOIN on
`question_topics`) and by its tag rows when `tags` is truthy (INNER JOIN on
`question_tags`).  Each row carries the joined `qt.topic_id` and `tg.tag`. -/
def searchRows (st : DbState) (f : SearchFilters) :
    List (Question × Option String × Option String) :=
  st.questions.flatMap (fun q =>
    let tjs : List (Option String) :=
      if truthyStr f.topicId then
        (st.questionTopics.filter (fun l => l.1 == q.id)).map (fun l => some l.2)
      else [none]
    let gjs : List (Option String) :=
      if truthyList f.tags then
        (st.questionTags.filter (fun r => r.1 == q.id)).map (fun r => some r.2)
      else [none]
    tjs.flatMap (fun tj => gjs.map (fun gj => (q, tj, gj))))

/-- The WHERE clause of `search_questions`: each condition is appended only
when the corresponding argument is supplied (truthiness for strings, lists
and text; `is not None` for the difficulty bounds), and all appended
conditions are ANDed. -/
def rowMatches (f : SearchFilters) (q : Question) (tj gj : Option String) : Bool :=
  (if truthyStr f.topicId then tj == some (f.topicId.getD "") else true) &&
  (if truthyList f.tags then
      match gj with
      | some t => ((f.tags.getD []).map pyLower).contains t
      | none => false
    else true) &&
  (if truthyStr f.bankId then q.bankId == f.bankId.getD "" else true) &&
  (if truthyStr f.questionType then q.questionType == f.questionType.getD "" else true) &&
  (if truthyStr f.bloomLevel then q.bloomLevel == some (f.bloomLevel.getD "") else true) &&
  (match f.difficultyMin with
   | some a => decide (a ≤ q.difficulty)
   | none => true) &&
  (match f.difficultyMax with
   | some b => decide (q.difficulty ≤ b)
   | none => true) &&
  (if truthyStr f.status then q.status == f.status.getD "" else true) &&
  (if truthyStr f.searchText then
      likeContains (f.searchText.getD "") q.stem ||
      (match q.explanation with
       | some e => likeContains (f.searchText.getD "") e
       | none => false)
    else true)

/-- Insert into a list sorted by `updatedAt` descending (keeping earlier
elements first among ties). -/
def insertDesc (q : Question) : List Question → List Question
  | [] => [q]
  | x :: xs => if x.updatedAt ≤ q.updatedAt then q :: x :: xs else x :: insertDesc q xs

/-- `ORDER BY q.updated_at DESC` as an insertion sort (the claims only depend
on the membership multiset of results, which any correct sort preserves). -/
def sortByUpdatedDesc : List Question → List Question
  | [] => []
  | q :: rest => insertDesc q (sortByUpdatedDesc rest)

/-- `search_questions` from `database.py`: joins, WHERE filter,
`SELECT DISTINCT q.*` (identical full rows collapse to one), `ORDER BY
q.updated_at DESC`, then `LIMIT ? OFFSET ?` (SQLite treats a negative LIMIT
as unlimited and a negative OFFSET as zero).  The decoded-`options` convention
makes the final `json.loads` step the identity. -/
def search_questions (st : DbState) (f : SearchFilters) : List Question :=
  let rows := (searchRows st f).filter (fun r => rowMatches f r.1 r.2.1 r.2.2)
  let distinct := (rows.map Prod.fst).dedup
  let sorted := sortByUpdatedDesc distinct
  let afterOff := sorted.drop (max f.offset 0).toNat
  if f.limit < 0 then afterOff else afterOff.take f.limit.toNat

/-! ## Concrete fixtures used by counterexamples and witnesses -/

/-- A bank row, as created by `create_question_bank("b1", "Algebra I", "Math")`. -/
def bankA : Bank :=
  { id := "b1", name := "Algebra I", description := none, subject := "Math"
    gradeLevel := none }

/-- A topic row under `bankA`. -/
def topicA : Topic :=
  { id := "t1", bankId := "b1", name := "Linear Equations", parentId := none
    description := none }

/-- A second topic row under `bankA`. -/
def topicB : Topic :=
  { id := "t2", bankId := "b1", name := "Quadratics", parentId := none
    description := none }

/-- A stored question row under `bankA` (the tests' `q-0001`). -/
def qBase : Question :=
  { id := "q-0001", bankId := "b1", questionType := "multiple_choice"
    stem := "What is 2+2?", options := some ["3", "4", "5", "6"]
    correctAnswer := some "4", explanation := none, difficulty := mkRat 3 10
    bloomLevel := some "remember", estimatedTimeSeconds := 60, points := 1
    status := "draft", author := none, createdAt := 0, updatedAt := 0
    timesUsed := 0, timesCorrect := 0, avgTimeSeconds := none
    discriminationIndex := none }

/-- A database holding one bank and two topics, no questions. -/
def stOneBank : DbState :=
  { banks := [bankA], topics := [topicA, topicB], questions := []
    questionTopics := [], questionTags := [] }

/-- A database holding one bank, two topics and one question. -/
def stWithQ : DbState :=
  { banks := [bankA], topics := [topicA, topicB], questions := [qBase]
    questionTopics := [], questionTags := [] }

/-- A database where `qBase` is linked to `topicA` and carries two tags. -/
def stLinked : DbState :=
  { banks := [bankA], topics := [topicA, topicB], questions := [qBase]
    questionTopics := [("q-0001", "t1")]
    questionTags := [("q-0001", "algebra"), ("q-0001", "basic")] }

/-- A question of difficulty 0.2. -/
def qEasy : Question := { qBase with id := "q-easy", difficulty := mkRat 1 5, updatedAt := 1 }

/-- A question of difficulty 0.8, tagged `algebra` and `basic` in `stSearch`. -/
def qHard : Question := { qBase with id := "q-hard", difficulty := mkRat 4 5, updatedAt := 2 }

/-- A question of difficulty exactly 0.5 (the lower bound of the claims'
range). -/
def qHalf : Question := { qBase with id := "q-half", difficulty := mkRat 1 2, updatedAt := 3 }

/-- A question of difficulty exactly 1.0 (the upper bound of the claims'
range). -/
def qFull : Question := { qBase with id := "q-full", difficulty := 1, updatedAt := 4 }

/-- A database with questions of assorted difficulties; `qHard` is tagged
`algebra` and `basic`. -/
def stSearch : DbState :=
  { banks := [bankA], topics := [topicA, topicB]
    questions := [qEasy, qHard, qHalf, qFull]
    questionTopics := []
    questionTags := [("q-hard", "algebra"), ("q-hard", "basic")] }

/-- The difficulty-range filter [0.5, 1.0] of the claims. -/
def fRange : SearchFilters :=
  { noFilters with difficultyMin := some (mkRat 1 2), difficultyMax := some 1 }

/-- The tags filter `["algebra", "basic"]` of the claims. -/
def fTags : SearchFilters :=
  { noFilters with tags := some ["algebra", "basic"] }

/-- The state produced by creating question `q1` with tags
`["Algebra", "algebra"]` in `stOneBank`. -/
def stTagsCreated : DbState :=
  { banks := [bankA], topics := [topicA, topicB]
    questions := [newQuestionRow "q1" "b1" "multiple_choice" "Stem?" "ans" none
      none (mkRat 1 2) none 60 1 none "draft" 7]
    questionTopics := [], questionTags := [("q1", "algebra")] }

/-- The state produced by replacing the topics of `q-0001` with `["t2"]` in
`stLinked`. -/
def stTopicsReplaced : DbState :=
  { banks := [bankA], topics := [topicA, topicB], questions := [qBase]
    questionTopics := [("q-0001", "t2")]
    questionTags := [("q-0001", "algebra"), ("q-0001", "basic")] }

/-- The state produced by updating the stem of `q-0001` in `stWithQ` at time
5. -/
def stStemUpdated : DbState :=
  { banks := [bankA], topics := [topicA, topicB]
    questions := [{ qBase with stem := "New stem", updatedAt := 5 }]
    questionTopics := [], questionTags := [] }

/-- The state produced by creating question `q1` with options `["x", "y"]`
in `stOneBank`. -/
def stOptsCreated : DbState :=
  { banks := [bankA], topics := [topicA, topicB]
    questions := [newQuestionRow "q1" "b1" "multiple_choice" "Stem?" "ans"
      (some ["x", "y"]) none (mkRat 1 2) none 60 1 none "draft" 7]
    questionTopics := [], questionTags := [] }

/-! ## C1: update with an unknown field name -/

/-- **C1.** At the failing input of `test_update_question_invalid_column`
(a stored question updated with the unknown field `evil_column`),
`update_question` does not reject the field name before building the query:
it interpolates it into `UPDATE questions SET evil_column = ? ...`, and the
call surfaces as a `sqlite3.OperationalError` from the storage engine, not as
the `InvalidField`/`ValueError("Invalid column")` that the claim, the spec and
the repository's own test expect. -/
theorem updateQuestion_unknown_field_operational_error :
    update_question stWithQ "q-0001" [("evil_column", Value.vStr "drop table")] 5 =
      Except.error DbError.operationalError := by
  rfl

/-! ## C4: options round-trip -/

/-- **C4 (counterexample).** The claim includes the empty options list, but
`create_question` stores options through `json.dumps(options) if options else
None`, and the empty list is falsy in Python: creating with `options = []`
stores NULL, and the subsequent `get_question` returns absent options
(`none`), not the supplied empty sequence (`some []`). -/
theorem createQuestion_empty_options_not_round_trip :
    (create_question stOneBank "q1" "b1" "multiple_choice" "Stem?" "ans" (some [])
        none (mkRat 1 2) none 60 1 none none none "draft" 7).map
      (fun (p : DbState × Option HydratedQuestion) =>
        p.2.map (fun (h : HydratedQuestion) => h.question.options)) =
      Except.ok (some none) ∧
    (none : Option (List String)) ≠ some [] := by
  exact ⟨rfl, by simp⟩

/-! ## C5: update refresh / frame -/

/-- **C5 (counterexample).** An `update_question` call that supplies only
`topics` (a field, per the claim) does not refresh the updated-timestamp:
`topics` is popped from the kwargs before the `if updates:` test, so no UPDATE
statement runs.  Here the call at time 5 replaces the links (proving a field
was supplied and applied) while `updated_at` stays 0. -/
theorem updateQuestion_topics_only_no_refresh :
    (update_question stWithQ "q-0001" [("topics", Value.vList ["t1"])] 5).map
      (fun (p : DbState × Option HydratedQuestion) =>
        (p.2.map (fun (h : HydratedQuestion) => h.question.updatedAt),
         p.1.questionTopics)) =
      Except.ok (some 0, [("q-0001", "t1")]) ∧ (0 : Int) ≠ 5 := by
  exact ⟨rfl, by decide⟩

/-! ## Helper lemmas -/

theorem find?_id_of_mem_nodup {l : List Question} {q : Question}
    (hnd : (l.map Question.id).Nodup) (hm : q ∈ l) :
    l.find? (fun x => x.id == q.id) = some q := by
  induction l with
  | nil => cases hm
  | cons x xs ih =>
    simp only [List.map_cons, List.nodup_cons] at hnd
    rcases List.mem_cons.mp hm with h | h
    · subst h
      simp [List.find?]
    · have hne : (x.id == q.id) = false := by
        simp only [beq_eq_false_iff_ne, ne_eq]
        intro he
        exact hnd.1 (he ▸ List.mem_map_of_mem Question.id h)
      rw [List.find?_cons_of_neg _ (by simp [hne]), ih hnd.2 h]

theorem insertTopicLinksIgnore_preserves {qid : String} {l : List String} :
    ∀ {st st' : DbState}, insertTopicLinksIgnore st qid l = Except.ok st' →
      st'.questions = st.questions ∧ st'.questionTags = st.questionTags ∧
      st'.topics = st.topics ∧ st'.banks = st.banks := by
  induction l with
  | nil =>
    intro st st' h
    simp only [insertTopicLinksIgnore, Except.ok.injEq] at h
    subst h
    exact ⟨rfl, rfl, rfl, rfl⟩
  | cons tid rest ih =>
    intro st st' h
    unfold insertTopicLinksIgnore at h
    split_ifs at h
    · have hres := ih h
      exact hres
    · have hres := ih h
      exact hres

theorem insertTagsIgnore_preserves {qid : String} {l : List String} :
    ∀ {st st' : DbState}, insertTagsIgnore st qid l = Except.ok st' →
      st'.questions = st.questions ∧ st'.questionTopics = st.questionTopics ∧
      st'.topics = st.topics ∧ st'.banks = st.banks := by
  induction l with
  | nil =>
    intro st st' h
    simp only [insertTagsIgnore, Except.ok.injEq] at h
    subst h
    exact ⟨rfl, rfl, rfl, rfl⟩
  | cons tg rest ih =>
    intro st st' h
    unfold insertTagsIgnore at h
    split_ifs at h
    · have hres := ih h
      exact hres
    · have hres := ih h
      exact hres

theorem insertTopicLinksStrict_preserves {qid : String} {l : List String} :
    ∀ {st st' : DbState}, insertTopicLinksStrict st qid l = Except.ok st' →
      st'.questions = st.questions ∧ st'.questionTags = st.questionTags ∧
      st'.topics = st.topics ∧ st'.banks = st.banks := by
  induction l with
  | nil =>
    intro st st' h
    simp only [insertTopicLinksStrict, Except.ok.injEq] at h
    subst h
    exact ⟨rfl, rfl, rfl, rfl⟩
  | cons tid rest ih =>
    intro st st' h
    unfold insertTopicLinksStrict at h
    split_ifs at h
    · have hres := ih h
      exact hres

theorem insertTagsStrict_preserves {qid : String} {l : List String} :
    ∀ {st st' : DbState}, insertTagsStrict st qid l = Except.ok st' →
      st'.questions = st.questions ∧ st'.questionTopics = st.questionTopics ∧
      st'.topics = st.topics ∧ st'.banks = st.banks := by
  induction l with
  | nil =>
    intro st st' h
    simp only [insertTagsStrict, Except.ok.injEq] at h
    subst h
    exact ⟨rfl, rfl, rfl, rfl⟩
  | cons tg rest ih =>
    intro st st' h
    unfold insertTagsStrict at h
    split_ifs at h
    · have hres := ih h
      exact hres

theorem insertTopicLinksIgnore_mem {qid : String} {l : List String} :
    ∀ {st st' : DbState}, insertTopicLinksIgnore st qid l = Except.ok st' →
      ∀ p : String × String, p ∈ st'.questionTopics ↔
        p ∈ st.questionTopics ∨ (p.1 = qid ∧ p.2 ∈ l) := by
  induction l with
  | nil =>
    intro st st' h p
    simp only [insertTopicLinksIgnore, Except.ok.injEq] at h
    subst h
    simp
  | cons tid rest ih =>
    intro st st' h p
    unfold insertTopicLinksIgnore at h
    split_ifs at h with h1
    · have hmem : (qid, tid) ∈ st.questionTopics := by
        rcases List.any_eq_true.mp h1 with ⟨r, hr, hc⟩
        rcases r with ⟨r1, r2⟩
        simp only [Bool.and_eq_true, beq_iff_eq] at hc
        rw [hc.1, hc.2] at hr
        exact hr
      have hres := ih h
      rcases p with ⟨p1, p2⟩
      rw [hres ⟨p1, p2⟩]
      simp only [List.map_cons, List.mem_cons]
      constructor
      · rintro (hp | ⟨hp1, hp2⟩)
        · exact Or.inl hp
        · exact Or.inr ⟨hp1, Or.inr hp2⟩
      · rintro (hp | ⟨hp1, hp2 | hp2⟩)
        · exact Or.inl hp
        · subst hp1
          subst hp2
          exact Or.inl hmem
        · exact Or.inr ⟨hp1, hp2⟩
    · have hres := ih h
      rcases p with ⟨p1, p2⟩
      rw [hres ⟨p1, p2⟩]
      simp only [List.mem_append, List.map_cons, List.mem_cons, List.mem_singleton,
        List.not_mem_nil, or_false, Prod.mk.injEq]
      constructor
      · rintro ((hp | ⟨e1, e2⟩) | ⟨hp1, hp2⟩)
        · exact Or.inl hp
        · exact Or.inr ⟨e1, Or.inl e2⟩
        · exact Or.inr ⟨hp1, Or.inr hp2⟩
      · rintro (hp | ⟨hp1, hp2 | hp2⟩)
        · exact Or.inl (Or.inl hp)
        · exact Or.inl (Or.inr ⟨hp1, hp2⟩)
        · exact Or.inr ⟨hp1, hp2⟩

theorem insertTagsIgnore_mem {qid : String} {l : List String} :
    ∀ {st st' : DbState}, insertTagsIgnore st qid l = Except.ok st' →
      ∀ p : String × String, p ∈ st'.questionTags ↔
        p ∈ st.questionTags ∨ (p.1 = qid ∧ p.2 ∈ l.map pyLower) := by
  induction l with
  | nil =>
    intro st st' h p
    simp only [insertTagsIgnore, Except.ok.injEq] at h
    subst h
    simp
  | cons tg rest ih =>
    intro st st' h p
    unfold insertTagsIgnore at h
    split_ifs at h with h1
    · have hmem : (qid, pyLower tg) ∈ st.questionTags := by
        rcases List.any_eq_true.mp h1 with ⟨r, hr, hc⟩
        rcases r with ⟨r1, r2⟩
        simp only [Bool.and_eq_true, beq_iff_eq] at hc
        rw [hc.1, hc.2] at hr
        exact hr
      have hres := ih h
      rcases p with ⟨p1, p2⟩
      rw [hres ⟨p1, p2⟩]
      simp only [List.map_cons, List.mem_cons]
      constructor
      · rintro (hp | ⟨hp1, hp2⟩)
        · exact Or.inl hp
        · exact Or.inr ⟨hp1, Or.inr hp2⟩
      · rintro (hp | ⟨hp1, hp2 | hp2⟩)
        · exact Or.inl hp
        · subst hp1
          subst hp2
          exact Or.inl hmem
        · exact Or.inr ⟨hp1, hp2⟩
    · have hres := ih h
      rcases p with ⟨p1, p2⟩
      rw [hres ⟨p1, p2⟩]
      simp only [List.mem_append, List.map_cons, List.mem_cons, List.mem_singleton,
        List.not_mem_nil, or_false, Prod.mk.injEq]
      constructor
      · rintro ((hp | ⟨e1, e2⟩) | ⟨hp1, hp2⟩)
        · exact Or.inl hp
        · exact Or.inr ⟨e1, Or.inl e2⟩
        · exact Or.inr ⟨hp1, Or.inr hp2⟩
      · rintro (hp | ⟨hp1, hp2 | hp2⟩)
        · exact Or.inl (Or.inl hp)
        · exact Or.inl (Or.inr ⟨hp1, hp2⟩)
        · exact Or.inr ⟨hp1, hp2⟩

theorem insertTopicLinksStrict_mem {qid : String} {l : List String} :
    ∀ {st st' : DbState}, insertTopicLinksStrict st qid l = Except.ok st' →
      ∀ p : String × String, p ∈ st'.questionTopics ↔
        p ∈ st.questionTopics ∨ (p.1 = qid ∧ p.2 ∈ l) := by
  induction l with
  | nil =>
    intro st st' h p
    simp only [insertTopicLinksStrict, Except.ok.injEq] at h
    subst h
    simp
  | cons tid rest ih =>
    intro st st' h p
    unfold insertTopicLinksStrict at h
    split_ifs at h with h1
    · have hres := ih h
      rcases p with ⟨p1, p2⟩
      rw [hres ⟨p1, p2⟩]
      simp only [List.mem_append, List.map_cons, List.mem_cons, List.mem_singleton,
        List.not_mem_nil, or_false, Prod.mk.injEq]
      constructor
      · rintro ((hp | ⟨e1, e2⟩) | ⟨hp1, hp2⟩)
        · exact Or.inl hp
        · exact Or.inr ⟨e1, Or.inl e2⟩
        · exact Or.inr ⟨hp1, Or.inr hp2⟩
      · rintro (hp | ⟨hp1, hp2 | hp2⟩)
        · exact Or.inl (Or.inl hp)
        · exact Or.inl (Or.inr ⟨hp1, hp2⟩)
        · exact Or.inr ⟨hp1, hp2⟩

theorem insertTagsStrict_mem {qid : String} {l : List String} :
    ∀ {st st' : DbState}, insertTagsStrict st qid l = Except.ok st' →
      ∀ p : String × String, p ∈ st'.questionTags ↔
        p ∈ st.questionTags ∨ (p.1 = qid ∧ p.2 ∈ l.map pyLower) := by
  induction l with
  | nil =>
    intro st st' h p
    simp only [insertTagsStrict, Except.ok.injEq] at h
    subst h
    simp
  | cons tg rest ih =>
    intro st st' h p
    unfold insertTagsStrict at h
    split_ifs at h with h1
    · have hres := ih h
      rcases p with ⟨p1, p2⟩
      rw [hres ⟨p1, p2⟩]
      simp only [List.mem_append, List.map_cons, List.mem_cons, List.mem_singleton,
        List.not_mem_nil, or_false, Prod.mk.injEq]
      constructor
      · rintro ((hp | ⟨e1, e2⟩) | ⟨hp1, hp2⟩)
        · exact Or.inl hp
        · exact Or.inr ⟨e1, Or.inl e2⟩
        · exact Or.inr ⟨hp1, Or.inr hp2⟩
      · rintro (hp | ⟨hp1, hp2 | hp2⟩)
        · exact Or.inl (Or.inl hp)
        · exact Or.inl (Or.inr ⟨hp1, hp2⟩)
        · exact Or.inr ⟨hp1, hp2⟩

theorem insertTagsStrict_ok_not_mem {qid : String} {l : List String} :
    ∀ {st st' : DbState}, insertTagsStrict st qid l = Except.ok st' →
      ∀ t ∈ l, (qid, pyLower t) ∉ st.questionTags := by
  induction l with
  | nil =>
    intro st st' _ t ht
    cases ht
  | cons tg rest ih =>
    intro st st' h t ht
    unfold insertTagsStrict at h
    split_ifs at h with h1
    intro hmem
    rcases List.mem_cons.mp ht with he | he
    · subst he
      exact h1 (List.any_eq_true.mpr ⟨(qid, pyLower t), hmem, by simp⟩)
    · have hnot := ih h t he
      exact hnot (List.mem_append_left _ hmem)

theorem insertTagsStrict_ok_nodup {qid : String} {l : List String} :
    ∀ {st st' : DbState}, insertTagsStrict st qid l = Except.ok st' →
      (l.map pyLower).Nodup := by
  induction l with
  | nil =>
    intro st st' _
    simp
  | cons tg rest ih =>
    intro st st' h
    unfold insertTagsStrict at h
    split_ifs at h with h1
    simp only [List.map_cons, List.nodup_cons]
    refine ⟨?_, ih h⟩
    intro hmem
    rcases List.mem_map.mp hmem with ⟨t, ht, he⟩
    have hnot := insertTagsStrict_ok_not_mem h t ht
    rw [he] at hnot
    exact hnot (List.mem_append_right _ (by simp))

theorem insertTagsStrict_error_integrity {qid : String} {l : List String} :
    ∀ {st : DbState} {e : DbError}, insertTagsStrict st qid l = Except.error e →
      e = DbError.integrityError := by
  induction l with
  | nil =>
    intro st e h
    simp [insertTagsStrict] at h
  | cons tg rest ih =>
    intro st e h
    unfold insertTagsStrict at h
    split_ifs at h
    · simp only [Except.error.injEq] at h
      exact h.symm
    · simp only [Except.error.injEq] at h
      exact h.symm
    · exact ih h

theorem insertDesc_perm (q : Question) (l : List Question) :
    List.Perm (insertDesc q l) (q :: l) := by
  induction l with
  | nil => simp [insertDesc]
  | cons x xs ih =>
    unfold insertDesc
    split_ifs
    · exact List.Perm.refl _
    · exact ((ih.cons x).trans (List.Perm.swap q x xs)).symm.symm

theorem sortByUpdatedDesc_perm (l : List Question) :
    List.Perm (sortByUpdatedDesc l) l := by
  induction l with
  | nil => simp [sortByUpdatedDesc]
  | cons q rest ih =>
    exact (insertDesc_perm q (sortByUpdatedDesc rest)).trans (ih.cons q)

theorem search_sorted_eq (st : DbState) (f : SearchFilters) :
    search_questions st f =
      (if f.limit < 0 then
        (sortByUpdatedDesc (((searchRows st f).filter
          (fun r => rowMatches f r.1 r.2.1 r.2.2)).map Prod.fst).dedup).drop
            (max f.offset 0).toNat
      else
        ((sortByUpdatedDesc (((searchRows st f).filter
          (fun r => rowMatches f r.1 r.2.1 r.2.2)).map Prod.fst).dedup).drop
            (max f.offset 0).toNat).take f.limit.toNat) := rfl

theorem mem_search_imp {st : DbState} {f : SearchFilters} {q : Question}
    (hq : q ∈ search_questions st f) :
    ∃ tj gj, (q, tj, gj) ∈ searchRows st f ∧ rowMatches f q tj gj = true := by
  rw [search_sorted_eq] at hq
  have hsorted : q ∈ sortByUpdatedDesc (((searchRows st f).filter
      (fun r => rowMatches f r.1 r.2.1 r.2.2)).map Prod.fst).dedup := by
    by_cases hlim : f.limit < 0
    · simp only [hlim, if_true] at hq
      exact List.mem_of_mem_drop hq
    · simp only [hlim, if_false] at hq
      exact List.mem_of_mem_drop (List.mem_of_mem_take hq)
  have hdedup := (sortByUpdatedDesc_perm _).mem_iff.mp hsorted
  have hmapped := List.mem_dedup.mp hdedup
  rcases List.mem_map.mp hmapped with ⟨row, hrow, hfst⟩
  rcases List.mem_filter.mp hrow with ⟨hmem, hmatch⟩
  rcases row with ⟨q0, tj, gj⟩
  cases hfst
  exact ⟨tj, gj, hmem, hmatch⟩

theorem search_nodup (st : DbState) (f : SearchFilters) :
    (search_questions st f).Nodup := by
  rw [search_sorted_eq]
  have hdd : (((searchRows st f).filter
      (fun r => rowMatches f r.1 r.2.1 r.2.2)).map Prod.fst).dedup.Nodup :=
    List.nodup_dedup _
  have hsorted : (sortByUpdatedDesc (((searchRows st f).filter
      (fun r => rowMatches f r.1 r.2.1 r.2.2)).map Prod.fst).dedup).Nodup :=
    ((sortByUpdatedDesc_perm _).nodup_iff).mpr hdd
  by_cases hlim : f.limit < 0
  · simp only [hlim, if_true]
    exact hsorted.sublist (List.drop_sublist _ _)
  · simp only [hlim, if_false]
    exact (hsorted.sublist (List.drop_sublist _ _)).sublist (List.take_sublist _ _)

theorem searchRows_mem {st : DbState} {f : SearchFilters} {q : Question}
    {tj gj : Option String} (h : (q, tj, gj) ∈ searchRows st f) :
    q ∈ st.questions ∧
    (truthyList f.tags = true →
      ∃ t, gj = some t ∧ (q.id, t) ∈ st.questionTags) := by
  unfold searchRows at h
  rcases List.mem_flatMap.mp h with ⟨q0, hq0, hrow⟩
  rcases List.mem_flatMap.mp hrow with ⟨tj0, htj0, hgj⟩
  rcases List.mem_map.mp hgj with ⟨gj0, hgj0, heq⟩
  have hq0q : q0 = q := congrArg Prod.fst heq
  have hgjs : gj0 = gj := by
    have h2 := congrArg Prod.snd heq
    exact congrArg Prod.snd h2
  rw [hq0q] at hq0
  rw [hq0q] at hgj0
  refine ⟨hq0, ?_⟩
  intro htr
  simp only [htr, if_true] at hgj0
  rcases List.mem_map.mp hgj0 with ⟨r, hr, he⟩
  rcases List.mem_filter.mp hr with ⟨hrmem, hrid⟩
  refine ⟨r.2, ?_, ?_⟩
  · rw [← hgjs, ← he]
  · have hre : r.1 = q.id := by
      simpa using hrid
    rw [← hre]
    exact hrmem

/-! ## C8: difficulty-range filter -/

/-- **C8.** A question returned by `search_questions` under a difficulty
range `[a, b]` satisfies `a ≤ difficulty ≤ b`: the two bounds are appended to
the WHERE clause as `q.difficulty >= ?` and `q.difficulty <= ?` (inclusive)
and ANDed with every other supplied filter. -/
theorem search_difficulty_range_inclusive (st : DbState) (f : SearchFilters)
    (a b : ℚ) (q : Question)
    (hmin : f.difficultyMin = some a) (hmax : f.difficultyMax = some b)
    (hq : q ∈ search_questions st f) :
    a ≤ q.difficulty ∧ q.difficulty ≤ b := by
  rcases mem_search_imp hq with ⟨tj, gj, _, hmatch⟩
  simp only [rowMatches, hmin, hmax, Bool.and_eq_true, decide_eq_true_eq] at hmatch
  exact ⟨hmatch.1.1.1.2, hmatch.1.1.2⟩

/-- Witness for C8: in `stSearch`, the range `[0.5, 1.0]` includes the
questions of difficulty 0.8, 0.5 and 1.0 and excludes the one of difficulty
0.2, and the theorem's bounds hold at the 0.8 question. -/
theorem search_difficulty_range_inclusive_witness :
    (fRange.difficultyMin = some (mkRat 1 2) ∧ fRange.difficultyMax = some 1 ∧
     qHard ∈ search_questions stSearch fRange ∧
     qHalf ∈ search_questions stSearch fRange ∧
     qFull ∈ search_questions stSearch fRange ∧
     qEasy ∉ search_questions stSearch fRange) ∧
    (mkRat 1 2 ≤ qHard.difficulty ∧ qHard.difficulty ≤ 1) :=
  ⟨⟨rfl, rfl, by decide, by decide, by decide, by decide⟩,
   search_difficulty_range_inclusive stSearch fRange (mkRat 1 2) 1 qHard rfl rfl
     (by decide)⟩

/-! ## C9: tags filter deduplication -/

/-- **C9.** Under a non-empty tags filter, every question in the result of
`search_questions` appears exactly once (the join on `question_tags` can
produce one row per matching tag, but `SELECT DISTINCT q.*` collapses them),
and a returned question has at least one of the requested tags (lowercased). -/
theorem search_tags_once_and_matched (st : DbState) (f : SearchFilters)
    (ts : List String) (q : Question)
    (htags : f.tags = some ts) (hne : ts ≠ [])
    (hq : q ∈ search_questions st f) :
    (search_questions st f).count q = 1 ∧
      ∃ t ∈ ts, (q.id, pyLower t) ∈ st.questionTags := by
  refine ⟨List.count_eq_one_of_mem (search_nodup st f) hq, ?_⟩
  rcases mem_search_imp hq with ⟨tj, gj, hrow, hmatch⟩
  have htr : truthyList f.tags = true := by
    rw [htags]
    cases ts with
    | nil => exact absurd rfl hne
    | cons a l => rfl
  rcases (searchRows_mem hrow).2 htr with ⟨t0, hgj, htag⟩
  simp only [rowMatches, Bool.and_eq_true] at hmatch
  have h2 := hmatch.1.1.1.1.1.1.1.2
  have htr2 : truthyList (some ts) = true := htags ▸ htr
  rw [htags, hgj, if_pos htr2] at h2
  have h3 : t0 ∈ ts.map pyLower := by simpa using h2
  rcases List.mem_map.mp h3 with ⟨t, ht, he⟩
  refine ⟨t, ht, ?_⟩
  rw [he]
  exact htag

/-- Witness for C9: in `stSearch` the question `qHard` carries both requested
tags `algebra` and `basic`, yet appears exactly once in the result. -/
theorem search_tags_once_and_matched_witness :
    (fTags.tags = some ["algebra", "basic"] ∧
     ["algebra", "basic"] ≠ ([] : List String) ∧
     qHard ∈ search_questions stSearch fTags) ∧
    ((search_questions stSearch fTags).count qHard = 1 ∧
      ∃ t ∈ ["algebra", "basic"], (qHard.id, pyLower t) ∈ stSearch.questionTags) :=
  ⟨⟨rfl, by decide, by decide⟩,
   search_tags_once_and_matched stSearch fTags ["algebra", "basic"] qHard rfl
     (by decide) (by decide)⟩

/-! ## C2: bank deletion cascades -/

/-- **C2.** `delete_question_bank` returns `true` exactly when a bank row with
the given id existed, and the resulting state contains no topic or question of
that bank and no membership/tag row referencing a question (or topic) of that
bank — the single `DELETE` cascades through the schema's `ON DELETE CASCADE`
foreign keys in one transaction, which the embedding models as one total state
transition. -/
theorem delete_bank_cascades (st : DbState) (bankId : String) :
    ((delete_question_bank st bankId).2 = true ↔ ∃ b ∈ st.banks, b.id = bankId) ∧
    (∀ t ∈ (delete_question_bank st bankId).1.topics, t.bankId ≠ bankId) ∧
    (∀ q ∈ (delete_question_bank st bankId).1.questions, q.bankId ≠ bankId) ∧
    (∀ l ∈ (delete_question_bank st bankId).1.questionTopics,
        (∀ q ∈ st.questions, q.bankId = bankId → l.1 ≠ q.id) ∧
        (∀ t ∈ st.topics, t.bankId = bankId → l.2 ≠ t.id)) ∧
    (∀ r ∈ (delete_question_bank st bankId).1.questionTags,
        ∀ q ∈ st.questions, q.bankId = bankId → r.1 ≠ q.id) := by
  unfold delete_question_bank
  refine ⟨?_, ?_, ?_, ?_, ?_⟩
  · simp [List.any_eq_true]
  · intro t ht
    rcases List.mem_map.mp ht with ⟨t0, ht0, he⟩
    rcases List.mem_filter.mp ht0 with ⟨_, hb⟩
    have hbank : t.bankId = t0.bankId := by
      rw [← he]
      split
      all_goals first
      | rfl
      | (split_ifs <;> rfl)
    rw [hbank]
    simpa using hb
  · intro q hq
    rcases List.mem_filter.mp hq with ⟨_, hb⟩
    simpa using hb
  · intro l hl
    rcases List.mem_filter.mp hl with ⟨_, hcond⟩
    simp only [Bool.and_eq_true, Bool.not_eq_true'] at hcond
    constructor
    · intro q hq hb heq
      have hqin : q.id ∈ (st.questions.filter
          (fun q2 => q2.bankId == bankId)).map Question.id :=
        List.mem_map_of_mem _ (List.mem_filter.mpr ⟨hq, by simp [hb]⟩)
      rw [← heq] at hqin
      have hnot : l.1 ∉ (st.questions.filter
          (fun q2 => q2.bankId == bankId)).map Question.id := by
        simpa using hcond.1
      exact hnot hqin
    · intro t ht hb heq
      have htin : t.id ∈ (st.topics.filter
          (fun t2 => t2.bankId == bankId)).map Topic.id :=
        List.mem_map_of_mem _ (List.mem_filter.mpr ⟨ht, by simp [hb]⟩)
      rw [← heq] at htin
      have hnot : l.2 ∉ (st.topics.filter
          (fun t2 => t2.bankId == bankId)).map Topic.id := by
        simpa using hcond.2
      exact hnot htin
  · intro r hr q hq hb heq
    rcases List.mem_filter.mp hr with ⟨_, hcond⟩
    simp only [Bool.not_eq_true'] at hcond
    have hqin : q.id ∈ (st.questions.filter
        (fun q2 => q2.bankId == bankId)).map Question.id :=
      List.mem_map_of_mem _ (List.mem_filter.mpr ⟨hq, by simp [hb]⟩)
    rw [← heq] at hqin
    have hnot : r.1 ∉ (st.questions.filter
        (fun q2 => q2.bankId == bankId)).map Question.id := by
      simpa using hcond
    exact hnot hqin

/-- Witness for C2: deleting bank `b1` from `stLinked` reports `true` and the
linked topic, question and join rows of the bank are gone. -/
theorem delete_bank_cascades_witness :
    ((delete_question_bank stLinked "b1").2 = true ↔
      ∃ b ∈ stLinked.banks, b.id = "b1") ∧
    (∀ t ∈ (delete_question_bank stLinked "b1").1.topics, t.bankId ≠ "b1") ∧
    (∀ q ∈ (delete_question_bank stLinked "b1").1.questions, q.bankId ≠ "b1") ∧
    (∀ l ∈ (delete_question_bank stLinked "b1").1.questionTopics,
        (∀ q ∈ stLinked.questions, q.bankId = "b1" → l.1 ≠ q.id) ∧
        (∀ t ∈ stLinked.topics, t.bankId = "b1" → l.2 ≠ t.id)) ∧
    (∀ r ∈ (delete_question_bank stLinked "b1").1.questionTags,
        ∀ q ∈ stLinked.questions, q.bankId = "b1" → r.1 ≠ q.id) :=
  delete_bank_cascades stLinked "b1"

/-! ## C3: topic deletion unlinks, does not cascade -/

/-- **C3.** `delete_topic` reports `true` for an existing topic and removes
the topic row together with every question-membership link that referenced
it, while every formerly linked question stays retrievable through
`get_question` with that topic absent from its hydrated topics list
(unlink semantics, not cascade). -/
theorem delete_topic_unlinks (st : DbState) (topicId : String) (q : Question)
    (hwf : st.WF) (hq : q ∈ st.questions)
    (hlink : (q.id, topicId) ∈ st.questionTopics) :
    (delete_topic st topicId).2 = true ∧
    (∀ t ∈ (delete_topic st topicId).1.topics, t.id ≠ topicId) ∧
    (∀ l ∈ (delete_topic st topicId).1.questionTopics, l.2 ≠ topicId) ∧
    ∃ h, get_question (delete_topic st topicId).1 q.id = some h ∧
      h.question = q ∧ ∀ p ∈ h.topics, p.1 ≠ topicId := by
  obtain ⟨hbnd, htnd, hqnd, hlnd, hgnd, hfk, hfkt⟩ := hwf
  have htops : ∀ t ∈ (delete_topic st topicId).1.topics, t.id ≠ topicId := by
    intro t ht
    rcases List.mem_map.mp ht with ⟨t0, ht0, he⟩
    rcases List.mem_filter.mp ht0 with ⟨_, hne⟩
    have hid : t.id = t0.id := by
      rw [← he]
      split_ifs <;> rfl
    rw [hid]
    simpa using hne
  refine ⟨?_, htops, ?_, ?_⟩
  · have hmem := (hfk _ hlink).2
    rcases List.mem_map.mp hmem with ⟨t, htm, hid⟩
    exact List.any_eq_true.mpr ⟨t, htm, by simp [hid]⟩
  · intro l hl
    rcases List.mem_filter.mp hl with ⟨_, hne⟩
    simpa using hne
  · have hfind : ((delete_topic st topicId).1).questions.find?
        (fun x => x.id == q.id) = some q :=
      find?_id_of_mem_nodup hqnd hq
    unfold get_question
    rw [hfind]
    refine ⟨_, rfl, rfl, ?_⟩
    intro p hp
    rcases List.mem_map.mp hp with ⟨t, htm, he⟩
    rcases List.mem_filter.mp htm with ⟨htmem, _⟩
    have hne := htops t htmem
    rw [← he]
    exact hne

/-- Witness for C3: deleting `t1` from `stLinked` (where `q-0001` is linked
to it) reports `true`, removes the topic and its links, and `q-0001` is still
retrievable with `t1` absent from its topics. -/
theorem delete_topic_unlinks_witness :
    (stLinked.WF ∧ qBase ∈ stLinked.questions ∧
      (qBase.id, "t1") ∈ stLinked.questionTopics) ∧
    ((delete_topic stLinked "t1").2 = true ∧
     (∀ t ∈ (delete_topic stLinked "t1").1.topics, t.id ≠ "t1") ∧
     (∀ l ∈ (delete_topic stLinked "t1").1.questionTopics, l.2 ≠ "t1") ∧
     ∃ h, get_question (delete_topic stLinked "t1").1 qBase.id = some h ∧
       h.question = qBase ∧ ∀ p ∈ h.topics, p.1 ≠ "t1") :=
  ⟨⟨by decide, by decide, by decide⟩,
   delete_topic_unlinks stLinked "t1" qBase (by decide) (by decide) (by decide)⟩

theorem find?_append_last {l : List Question} {q : Question} {p : Question → Bool}
    (hl : ∀ x ∈ l, p x = false) (hq : p q = true) :
    (l ++ [q]).find? p = some q := by
  induction l with
  | nil => simp [List.find?, hq]
  | cons x xs ih =>
    have hx : p x = false := hl x (by simp)
    rw [List.cons_append, List.find?_cons_of_neg _ (by simp [hx])]
    exact ih (fun y hy => hl y (by simp [hy]))

theorem create_question_ok_decomp {st st' : DbState} {hq : Option HydratedQuestion}
    {qid bid qt stem ca : String} {opts : Option (List String)}
    {expl : Option String} {diff : ℚ} {bl : Option String} {ets pts : Int}
    {tps tgs : Option (List String)} {auth : Option String} {status : String}
    {now : Int}
    (h : create_question st qid bid qt stem ca opts expl diff bl ets pts tps tgs
        auth status now = Except.ok (st', hq)) :
    (∀ q0 ∈ st.questions, q0.id ≠ qid) ∧
    ∃ st2,
      insertTopicLinksIgnore
        { st with questions := st.questions ++
          [newQuestionRow qid bid qt stem ca opts expl diff bl ets pts auth
            status now] } qid (tps.getD []) = Except.ok st2 ∧
      insertTagsIgnore st2 qid (tgs.getD []) = Except.ok st' ∧
      hq = get_question st' qid := by
  unfold create_question at h
  split_ifs at h with h1 h2
  constructor
  · have h1a : ∀ x ∈ st.questions, ¬x.id = qid := by simpa using h1
    exact fun q0 hq0 => h1a q0 hq0
  · dsimp only at h
    rcases hres : insertTopicLinksIgnore
        { st with questions := st.questions ++
          [newQuestionRow qid bid qt stem ca opts expl diff bl ets pts auth
            status now] } qid (tps.getD []) with e | st2
    · rw [hres] at h
      cases h
    · rw [hres] at h
      dsimp only at h
      rcases hres2 : insertTagsIgnore st2 qid (tgs.getD []) with e | st3
      · rw [hres2] at h
        cases h
      · rw [hres2] at h
        dsimp only at h
        simp only [Except.ok.injEq, Prod.mk.injEq] at h
        refine ⟨st2, rfl, ?_, ?_⟩
        · rw [← h.1]
          exact hres2
        · rw [← h.1]
          exact h.2.symm

theorem create_question_get {st st' : DbState} {hq : Option HydratedQuestion}
    {qid bid qt stem ca : String} {opts : Option (List String)}
    {expl : Option String} {diff : ℚ} {bl : Option String} {ets pts : Int}
    {tps tgs : Option (List String)} {auth : Option String} {status : String}
    {now : Int}
    (h : create_question st qid bid qt stem ca opts expl diff bl ets pts tps tgs
        auth status now = Except.ok (st', hq)) :
    hq.map (fun h0 => h0.question) =
      some (newQuestionRow qid bid qt stem ca opts expl diff bl ets pts auth
        status now) := by
  obtain ⟨hfresh, st2, hins, hins2, hhq⟩ := create_question_ok_decomp h
  have hqs : st'.questions = st.questions ++
      [newQuestionRow qid bid qt stem ca opts expl diff bl ets pts auth
        status now] := by
    rw [(insertTagsIgnore_preserves hins2).1, (insertTopicLinksIgnore_preserves hins).1]
  have hfind : st'.questions.find? (fun x => x.id == qid) =
      some (newQuestionRow qid bid qt stem ca opts expl diff bl ets pts auth
        status now) := by
    rw [hqs]
    refine find?_append_last ?_ (by simp [newQuestionRow])
    intro x hx
    simp only [beq_eq_false_iff_ne, ne_eq]
    exact hfresh x hx
  rw [hhq]
  unfold get_question
  rw [hfind]
  rfl

/-- **C4 (amended).** After a successful `create_question`, a *non-empty*
supplied options list round-trips unchanged through serialization, while
absent options — and, because of the Python truthiness test
`json.dumps(options) if options else None`, also the *empty* list — round-trip
to absent. -/
theorem create_options_round_trip (st st' : DbState) (hq : Option HydratedQuestion)
    (qid bid qt stem ca : String) (opts : Option (List String))
    (expl : Option String) (diff : ℚ) (bl : Option String) (ets pts : Int)
    (tps tgs : Option (List String)) (auth : Option String) (status : String)
    (now : Int)
    (h : create_question st qid bid qt stem ca opts expl diff bl ets pts tps tgs
        auth status now = Except.ok (st', hq)) :
    (∀ l, opts = some l → l ≠ [] →
      hq.map (fun h0 => h0.question.options) = some (some l)) ∧
    (opts = none → hq.map (fun h0 => h0.question.options) = some none) ∧
    (opts = some [] → hq.map (fun h0 => h0.question.options) = some none) := by
  have hget := create_question_get h
  have hopts : hq.map (fun h0 => h0.question.options) =
      some ((newQuestionRow qid bid qt stem ca opts expl diff bl ets pts auth
        status now).options) := by
    cases hq with
    | none => cases hget
    | some h0 =>
        simp only [Option.map_some'] at hget ⊢
        rw [show h0.question = newQuestionRow qid bid qt stem ca opts expl diff
          bl ets pts auth status now from Option.some.inj hget]
  refine ⟨?_, ?_, ?_⟩
  · intro l hl hne
    rw [hopts, hl]
    cases l with
    | nil => exact absurd rfl hne
    | cons a as => rfl
  · intro hl
    rw [hopts, hl]
    rfl
  · intro hl
    rw [hopts, hl]
    rfl

/-- Witness for the amended C4: creating `q1` with options `["x", "y"]`
succeeds and `get_question` returns the same ordered list. -/
theorem create_options_round_trip_witness :
    (create_question stOneBank "q1" "b1" "multiple_choice" "Stem?" "ans"
        (some ["x", "y"]) none (mkRat 1 2) none 60 1 none none none "draft" 7 =
      Except.ok (stOptsCreated, get_question stOptsCreated "q1")) ∧
    ((get_question stOptsCreated "q1").map (fun h0 => h0.question.options) =
      some (some ["x", "y"])) :=
  ⟨rfl,
   (create_options_round_trip stOneBank stOptsCreated
      (get_question stOptsCreated "q1") "q1" "b1" "multiple_choice" "Stem?" "ans"
      (some ["x", "y"]) none (mkRat 1 2) none 60 1 none none none "draft" 7
      rfl).1 ["x", "y"] rfl (by decide)⟩

/-! ## C6: tag lowercasing and deduplication on create -/

/-- **C6.** For every tag list supplied to a successful `create_question`,
the stored tag rows of the new question are exactly the lowercased elements
of the list: `INSERT OR IGNORE` silently drops duplicates of the
`(question_id, tag)` primary key, so e.g. `["Algebra", "algebra"]` stores the
single tag `"algebra"`.  The hypothesis is the schema's foreign-key invariant
(tag rows reference existing questions). -/
theorem create_tags_lowercased_deduped (st st' : DbState)
    (hq : Option HydratedQuestion)
    (qid bid qt stem ca : String) (opts : Option (List String))
    (expl : Option String) (diff : ℚ) (bl : Option String) (ets pts : Int)
    (tps : Option (List String)) (ts : List String) (auth : Option String)
    (status : String) (now : Int)
    (hfk : ∀ r ∈ st.questionTags, r.1 ∈ st.questions.map Question.id)
    (h : create_question st qid bid qt stem ca opts expl diff bl ets pts tps
        (some ts) auth status now = Except.ok (st', hq)) :
    ∀ t, (qid, t) ∈ st'.questionTags ↔ t ∈ ts.map pyLower := by
  obtain ⟨hfresh, st2, hins, hins2, _⟩ := create_question_ok_decomp h
  intro t
  have hmem := insertTagsIgnore_mem hins2 (qid, t)
  have hst2tags : st2.questionTags = st.questionTags :=
    (insertTopicLinksIgnore_preserves hins).2.1
  have hclean : (qid, t) ∉ st.questionTags := by
    intro hin
    rcases List.mem_map.mp (hfk _ hin) with ⟨q0, hq0, hid⟩
    exact hfresh q0 hq0 hid
  constructor
  · intro hmemSt
    rcases hmem.mp hmemSt with hin | ⟨_, hmap⟩
    · rw [hst2tags] at hin
      exact absurd hin hclean
    · simpa using hmap
  · intro hmap
    exact hmem.mpr (Or.inr ⟨rfl, by simpa using hmap⟩)

/-- Witness for C6: creating with tags `["Algebra", "algebra"]` stores exactly
one tag `"algebra"`. -/
theorem create_tags_lowercased_deduped_witness :
    ((∀ r ∈ stOneBank.questionTags, r.1 ∈ stOneBank.questions.map Question.id) ∧
     create_question stOneBank "q1" "b1" "multiple_choice" "Stem?" "ans" none
        none (mkRat 1 2) none 60 1 none (some ["Algebra", "algebra"]) none
        "draft" 7 =
       Except.ok (stTagsCreated, get_question stTagsCreated "q1")) ∧
    ((("q1", "algebra") ∈ stTagsCreated.questionTags ↔
        "algebra" ∈ ["Algebra", "algebra"].map pyLower) ∧
     stTagsCreated.questionTags = [("q1", "algebra")]) :=
  ⟨⟨by decide, rfl⟩,
   ⟨create_tags_lowercased_deduped stOneBank stTagsCreated
      (get_question stTagsCreated "q1") "q1" "b1" "multiple_choice" "Stem?"
      "ans" none none (mkRat 1 2) none 60 1 none ["Algebra", "algebra"] none
      "draft" 7 (by decide) rfl "algebra",
    rfl⟩⟩

theorem update_question_ok_decomp {st st' : DbState} {hq : Option HydratedQuestion}
    {qid : String} {updates : List (String × Value)} {now : Int}
    (h : update_question st qid updates now = Except.ok (st', hq)) :
    ∃ st1 st2,
      scalarUpdateStep st qid (popKey (popKey updates "topics").2 "tags").2 now =
        Except.ok st1 ∧
      topicsStep st1 qid (popKey updates "topics").1 = Except.ok st2 ∧
      tagsStep st2 qid (popKey (popKey updates "topics").2 "tags").1 =
        Except.ok st' ∧
      hq = get_question st' qid := by
  unfold update_question at h
  rcases h1 : scalarUpdateStep st qid (popKey (popKey updates "topics").2 "tags").2
      now with e | st1
  · rw [h1] at h
    cases h
  · rw [h1] at h
    dsimp only at h
    rcases h2 : topicsStep st1 qid (popKey updates "topics").1 with e | st2
    · rw [h2] at h
      cases h
    · rw [h2] at h
      dsimp only at h
      rcases h3 : tagsStep st2 qid (popKey (popKey updates "topics").2 "tags").1
          with e | st3
      · rw [h3] at h
        cases h
      · rw [h3] at h
        dsimp only at h
        simp only [Except.ok.injEq, Prod.mk.injEq] at h
        refine ⟨st1, st2, rfl, h2, ?_, ?_⟩
        · rw [← h.1]
          exact h3
        · rw [← h.1]
          exact h.2.symm

theorem topicsStep_preserves {st st2 : DbState} {qid : String} {v : Option Value}
    (h : topicsStep st qid v = Except.ok st2) :
    st2.questions = st.questions ∧ st2.questionTags = st.questionTags ∧
    st2.topics = st.topics ∧ st2.banks = st.banks := by
  cases v with
  | none =>
    simp only [topicsStep, Except.ok.injEq] at h
    subst h
    exact ⟨rfl, rfl, rfl, rfl⟩
  | some val =>
    cases val with
    | vNull =>
      simp only [topicsStep, Except.ok.injEq] at h
      subst h
      exact ⟨rfl, rfl, rfl, rfl⟩
    | vList l =>
      simp only [topicsStep] at h
      have hres := insertTopicLinksStrict_preserves h
      exact hres
    | vStr s => simp [topicsStep] at h
    | vNum x => simp [topicsStep] at h
    | vInt n => simp [topicsStep] at h

theorem tagsStep_preserves {st st2 : DbState} {qid : String} {v : Option Value}
    (h : tagsStep st qid v = Except.ok st2) :
    st2.questions = st.questions ∧ st2.questionTopics = st.questionTopics ∧
    st2.topics = st.topics ∧ st2.banks = st.banks := by
  cases v with
  | none =>
    simp only [tagsStep, Except.ok.injEq] at h
    subst h
    exact ⟨rfl, rfl, rfl, rfl⟩
  | some val =>
    cases val with
    | vNull =>
      simp only [tagsStep, Except.ok.injEq] at h
      subst h
      exact ⟨rfl, rfl, rfl, rfl⟩
    | vList l =>
      simp only [tagsStep] at h
      have hres := insertTagsStrict_preserves h
      exact hres
    | vStr s => simp [tagsStep] at h
    | vNum x => simp [tagsStep] at h
    | vInt n => simp [tagsStep] at h

theorem topicsStep_vList_mem {st st2 : DbState} {qid : String} {l : List String}
    (h : topicsStep st qid (some (Value.vList l)) = Except.ok st2) :
    ∀ t, ((qid, t) ∈ st2.questionTopics ↔ t ∈ l) := by
  simp only [topicsStep] at h
  intro t
  rw [insertTopicLinksStrict_mem h (qid, t)]
  constructor
  · rintro (hin | ⟨_, ht⟩)
    · rcases List.mem_filter.mp hin with ⟨_, hcond⟩
      simp at hcond
    · exact ht
  · intro ht
    exact Or.inr ⟨rfl, ht⟩

theorem tagsStep_vList_mem {st st2 : DbState} {qid : String} {l : List String}
    (h : tagsStep st qid (some (Value.vList l)) = Except.ok st2) :
    ∀ t, ((qid, t) ∈ st2.questionTags ↔ t ∈ l.map pyLower) := by
  simp only [tagsStep] at h
  intro t
  rw [insertTagsStrict_mem h (qid, t)]
  constructor
  · rintro (hin | ⟨_, ht⟩)
    · rcases List.mem_filter.mp hin with ⟨_, hcond⟩
      simp at hcond
    · exact ht
  · intro ht
    exact Or.inr ⟨rfl, ht⟩

/-! ## C7: topics/tags replacement on update -/

/-- **C7.** When a successful `update_question` call supplies a `topics` list,
the question's membership links afterwards are exactly the supplied topic ids
(delete-all-then-reinsert, not merge); likewise a supplied `tags` list fully
replaces the tag rows with its lowercased elements.  In particular updating
with `topics=[X]` and then `topics=[Y]` leaves the question linked exactly to
`Y`. -/
theorem update_topics_tags_full_replace (st st' : DbState)
    (hq : Option HydratedQuestion) (qid : String)
    (updates : List (String × Value)) (now : Int) (l : List String)
    (htv : (popKey updates "topics").1 = some (Value.vList l))
    (h : update_question st qid updates now = Except.ok (st', hq)) :
    (∀ t, (qid, t) ∈ st'.questionTopics ↔ t ∈ l) ∧
    (∀ g, (popKey (popKey updates "topics").2 "tags").1 = some (Value.vList g) →
      ∀ t, (qid, t) ∈ st'.questionTags ↔ t ∈ g.map pyLower) := by
  obtain ⟨st1, st2, h1, h2, h3, _⟩ := update_question_ok_decomp h
  rw [htv] at h2
  constructor
  · intro t
    rw [(tagsStep_preserves h3).2.1]
    exact topicsStep_vList_mem h2 t
  · intro g hg t
    rw [hg] at h3
    exact tagsStep_vList_mem h3 t

/-- Witness for C7: on `stLinked` (where `q-0001` is linked to `t1`),
updating with `topics=["t2"]` leaves the question linked to `t2` and no
longer to `t1`. -/
theorem update_topics_tags_full_replace_witness :
    ((popKey [("topics", Value.vList ["t2"])] "topics").1 =
        some (Value.vList ["t2"]) ∧
     update_question stLinked "q-0001" [("topics", Value.vList ["t2"])] 5 =
       Except.ok (stTopicsReplaced, get_question stTopicsReplaced "q-0001")) ∧
    ((("q-0001", "t2") ∈ stTopicsReplaced.questionTopics ↔ "t2" ∈ ["t2"]) ∧
     (("q-0001", "t1") ∈ stTopicsReplaced.questionTopics ↔ "t1" ∈ ["t2"])) :=
  ⟨⟨rfl, rfl⟩,
   ⟨(update_topics_tags_full_replace stLinked stTopicsReplaced
       (get_question stTopicsReplaced "q-0001") "q-0001"
       [("topics", Value.vList ["t2"])] 5 ["t2"] rfl rfl).1 "t2",
    (update_topics_tags_full_replace stLinked stTopicsReplaced
       (get_question stTopicsReplaced "q-0001") "q-0001"
       [("topics", Value.vList ["t2"])] 5 ["t2"] rfl rfl).1 "t1"⟩⟩

/-! ## C10: duplicate tags in an update -/

/-- **C10.** An `update_question` call whose tags list contains two elements
that coincide after lowercasing fails with `sqlite3.IntegrityError`: the
replacement phase inserts with a plain `INSERT` (no `OR IGNORE`), so the
second insert of the same `(question_id, tag)` pair violates the composite
primary key — unlike `create_question`, whose `INSERT OR IGNORE` silently
drops the duplicate (second conjunct, shown at the claims' concrete input
`["Algebra", "algebra"]`). -/
theorem update_duplicate_tags_integrity_error (st : DbState) (qid : String)
    (ts : List String) (now : Int)
    (hdup : ¬ (ts.map pyLower).Nodup) :
    update_question st qid [("tags", Value.vList ts)] now =
      Except.error DbError.integrityError ∧
    (create_question stOneBank "q1" "b1" "multiple_choice" "Stem?" "ans" none
        none (mkRat 1 2) none 60 1 none (some ["Algebra", "algebra"]) none
        "draft" 7 =
      Except.ok (stTagsCreated, get_question stTagsCreated "q1") ∧
     stTagsCreated.questionTags = [("q1", "algebra")]) := by
  refine ⟨?_, rfl, rfl⟩
  have hscalar : scalarUpdateStep st qid
      (popKey (popKey [("tags", Value.vList ts)] "topics").2 "tags").2 now =
      Except.ok st := rfl
  have htop : topicsStep st qid
      (popKey [("tags", Value.vList ts)] "topics").1 = Except.ok st := rfl
  have htagv : (popKey (popKey [("tags", Value.vList ts)] "topics").2 "tags").1 =
      some (Value.vList ts) := rfl
  unfold update_question
  rw [hscalar]
  dsimp only
  rw [htop]
  dsimp only
  rw [htagv]
  simp only [tagsStep]
  rcases hres : insertTagsStrict
      { st with questionTags := st.questionTags.filter (fun r => r.1 != qid) }
      qid ts with e | st3
  · dsimp only
    rw [insertTagsStrict_error_integrity hres]
  · exact absurd (insertTagsStrict_ok_nodup hres) hdup

/-- Witness for C10: updating `q-0001` with tags `["Algebra", "algebra"]`
fails with an integrity error, while creating with the same list succeeds and
stores the single tag `"algebra"`. -/
theorem update_duplicate_tags_integrity_error_witness :
    (¬ ((["Algebra", "algebra"] : List String).map pyLower).Nodup) ∧
    (update_question stWithQ "q-0001"
        [("tags", Value.vList ["Algebra", "algebra"])] 5 =
      Except.error DbError.integrityError ∧
    (create_question stOneBank "q1" "b1" "multiple_choice" "Stem?" "ans" none
        none (mkRat 1 2) none 60 1 none (some ["Algebra", "algebra"]) none
        "draft" 7 =
      Except.ok (stTagsCreated, get_question stTagsCreated "q1") ∧
     stTagsCreated.questionTags = [("q1", "algebra")])) :=
  ⟨by decide,
   update_duplicate_tags_integrity_error stWithQ "q-0001" ["Algebra", "algebra"]
     5 (by decide)⟩

theorem setColumn_frame {qn q2 : Question} {k : String} {v : Value}
    (h : setColumn qn k v = some q2) :
    (k ≠ "id" → q2.id = qn.id) ∧
    (k ≠ "bank_id" → q2.bankId = qn.bankId) ∧
    (k ≠ "question_type" → q2.questionType = qn.questionType) ∧
    (k ≠ "stem" → q2.stem = qn.stem) ∧
    (k ≠ "options" → q2.options = qn.options) ∧
    (k ≠ "correct_answer" → q2.correctAnswer = qn.correctAnswer) ∧
    (k ≠ "explanation" → q2.explanation = qn.explanation) ∧
    (k ≠ "difficulty" → q2.difficulty = qn.difficulty) ∧
    (k ≠ "bloom_level" → q2.bloomLevel = qn.bloomLevel) ∧
    (k ≠ "estimated_time_seconds" → q2.estimatedTimeSeconds = qn.estimatedTimeSeconds) ∧
    (k ≠ "points" → q2.points = qn.points) ∧
    (k ≠ "status" → q2.status = qn.status) ∧
    (k ≠ "author" → q2.author = qn.author) ∧
    (k ≠ "created_at" → q2.createdAt = qn.createdAt) ∧
    (k ≠ "updated_at" → q2.updatedAt = qn.updatedAt) ∧
    (k ≠ "times_used" → q2.timesUsed = qn.timesUsed) ∧
    (k ≠ "times_correct" → q2.timesCorrect = qn.timesCorrect) ∧
    (k ≠ "avg_time_seconds" → q2.avgTimeSeconds = qn.avgTimeSeconds) ∧
    (k ≠ "discrimination_index" → q2.discriminationIndex = qn.discriminationIndex) := by
  unfold setColumn at h
  by_cases h1 : (k == "id") = true
  · rw [if_pos h1] at h
    cases v
    all_goals try exact Option.noConfusion h
    all_goals (injection h with he; subst he; refine ⟨?_, ?_, ?_, ?_, ?_, ?_, ?_, ?_, ?_, ?_, ?_, ?_, ?_, ?_, ?_, ?_, ?_, ?_, ?_⟩ <;> (intro hk; first | rfl | exact absurd (beq_iff_eq.mp (by assumption)) hk))
  · rw [if_neg h1] at h
    by_cases h2 : (k == "bank_id") = true
    · rw [if_pos h2] at h
      cases v
      all_goals try exact Option.noConfusion h
      all_goals (injection h with he; subst he; refine ⟨?_, ?_, ?_, ?_, ?_, ?_, ?_, ?_, ?_, ?_, ?_, ?_, ?_, ?_, ?_, ?_, ?_, ?_, ?_⟩ <;> (intro hk; first | rfl | exact absurd (beq_iff_eq.mp (by assumption)) hk))
    · rw [if_neg h2] at h
      by_cases h3 : (k == "question_type") = true
      · rw [if_pos h3] at h
        cases v
        all_goals try exact Option.noConfusion h
        all_goals (injection h with he; subst he; refine ⟨?_, ?_, ?_, ?_, ?_, ?_, ?_, ?_, ?_, ?_, ?_, ?_, ?_, ?_, ?_, ?_, ?_, ?_, ?_⟩ <;> (intro hk; first | rfl | exact absurd (beq_iff_eq.mp (by assumption)) hk))
      · rw [if_neg h3] at h
        by_cases h4 : (k == "stem") = true
        · rw [if_pos h4] at h
          cases v
          all_goals try exact Option.noConfusion h
          all_goals (injection h with he; subst he; refine ⟨?_, ?_, ?_, ?_, ?_, ?_, ?_, ?_, ?_, ?_, ?_, ?_, ?_, ?_, ?_, ?_, ?_, ?_, ?_⟩ <;> (intro hk; first | rfl | exact absurd (beq_iff_eq.mp (by assumption)) hk))
        · rw [if_neg h4] at h
          by_cases h5 : (k == "options") = true
          · rw [if_pos h5] at h
            cases v
            all_goals try exact Option.noConfusion h
            all_goals (injection h with he; subst he; refine ⟨?_, ?_, ?_, ?_, ?_, ?_, ?_, ?_, ?_, ?_, ?_, ?_, ?_, ?_, ?_, ?_, ?_, ?_, ?_⟩ <;> (intro hk; first | rfl | exact absurd (beq_iff_eq.mp (by assumption)) hk))
          · rw [if_neg h5] at h
            by_cases h6 : (k == "correct_answer") = true
            · rw [if_pos h6] at h
              cases v
              all_goals try exact Option.noConfusion h
              all_goals (injection h with he; subst he; refine ⟨?_, ?_, ?_, ?_, ?_, ?_, ?_, ?_, ?_, ?_, ?_, ?_, ?_, ?_, ?_, ?_, ?_, ?_, ?_⟩ <;> (intro hk; first | rfl | exact absurd (beq_iff_eq.mp (by assumption)) hk))
            · rw [if_neg h6] at h
              by_cases h7 : (k == "explanation") = true
              · rw [if_pos h7] at h
                cases v
                all_goals try exact Option.noConfusion h
                all_goals (injection h with he; subst he; refine ⟨?_, ?_, ?_, ?_, ?_, ?_, ?_, ?_, ?_, ?_, ?_, ?_, ?_, ?_, ?_, ?_, ?_, ?_, ?_⟩ <;> (intro hk; first | rfl | exact absurd (beq_iff_eq.mp (by assumption)) hk))
              · rw [if_neg h7] at h
                by_cases h8 : (k == "difficulty") = true
                · rw [if_pos h8] at h
                  cases v
                  all_goals try exact Option.noConfusion h
                  all_goals (injection h with he; subst he; refine ⟨?_, ?_, ?_, ?_, ?_, ?_, ?_, ?_, ?_, ?_, ?_, ?_, ?_, ?_, ?_, ?_, ?_, ?_, ?_⟩ <;> (intro hk; first | rfl | exact absurd (beq_iff_eq.mp (by assumption)) hk))
                · rw [if_neg h8] at h
                  by_cases h9 : (k == "bloom_level") = true
                  · rw [if_pos h9] at h
                    cases v
                    all_goals try exact Option.noConfusion h
                    all_goals (injection h with he; subst he; refine ⟨?_, ?_, ?_, ?_, ?_, ?_, ?_, ?_, ?_, ?_, ?_, ?_, ?_, ?_, ?_, ?_, ?_, ?_, ?_⟩ <;> (intro hk; first | rfl | exact absurd (beq_iff_eq.mp (by assumption)) hk))
                  · rw [if_neg h9] at h
                    by_cases h10 : (k == "estimated_time_seconds") = true
                    · rw [if_pos h10] at h
                      cases v
                      all_goals try exact Option.noConfusion h
                      all_goals (injection h with he; subst he; refine ⟨?_, ?_, ?_, ?_, ?_, ?_, ?_, ?_, ?_, ?_, ?_, ?_, ?_, ?_, ?_, ?_, ?_, ?_, ?_⟩ <;> (intro hk; first | rfl | exact absurd (beq_iff_eq.mp (by assumption)) hk))
                    · rw [if_neg h10] at h
                      by_cases h11 : (k == "points") = true
                      · rw [if_pos h11] at h
                        cases v
                        all_goals try exact Option.noConfusion h
                        all_goals (injection h with he; subst he; refine ⟨?_, ?_, ?_, ?_, ?_, ?_, ?_, ?_, ?_, ?_, ?_, ?_, ?_, ?_, ?_, ?_, ?_, ?_, ?_⟩ <;> (intro hk; first | rfl | exact absurd (beq_iff_eq.mp (by assumption)) hk))
                      · rw [if_neg h11] at h
                        by_cases h12 : (k == "status") = true
                        · rw [if_pos h12] at h
                          cases v
                          all_goals try exact Option.noConfusion h
                          all_goals (injection h with he; subst he; refine ⟨?_, ?_, ?_, ?_, ?_, ?_, ?_, ?_, ?_, ?_, ?_, ?_, ?_, ?_, ?_, ?_, ?_, ?_, ?_⟩ <;> (intro hk; first | rfl | exact absurd (beq_iff_eq.mp (by assumption)) hk))
                        · rw [if_neg h12] at h
                          by_cases h13 : (k == "author") = true
                          · rw [if_pos h13] at h
                            cases v
                            all_goals try exact Option.noConfusion h
                            all_goals (injection h with he; subst he; refine ⟨?_, ?_, ?_, ?_, ?_, ?_, ?_, ?_, ?_, ?_, ?_, ?_, ?_, ?_, ?_, ?_, ?_, ?_, ?_⟩ <;> (intro hk; first | rfl | exact absurd (beq_iff_eq.mp (by assumption)) hk))
                          · rw [if_neg h13] at h
                            by_cases h14 : (k == "created_at") = true
                            · rw [if_pos h14] at h
                              cases v
                              all_goals try exact Option.noConfusion h
                              all_goals (injection h with he; subst he; refine ⟨?_, ?_, ?_, ?_, ?_, ?_, ?_, ?_, ?_, ?_, ?_, ?_, ?_, ?_, ?_, ?_, ?_, ?_, ?_⟩ <;> (intro hk; first | rfl | exact absurd (beq_iff_eq.mp (by assumption)) hk))
                            · rw [if_neg h14] at h
                              by_cases h15 : (k == "updated_at") = true
                              · rw [if_pos h15] at h
                                cases v
                                all_goals try exact Option.noConfusion h
                                all_goals (injection h with he; subst he; refine ⟨?_, ?_, ?_, ?_, ?_, ?_, ?_, ?_, ?_, ?_, ?_, ?_, ?_, ?_, ?_, ?_, ?_, ?_, ?_⟩ <;> (intro hk; first | rfl | exact absurd (beq_iff_eq.mp (by assumption)) hk))
                              · rw [if_neg h15] at h
                                by_cases h16 : (k == "times_used") = true
                                · rw [if_pos h16] at h
                                  cases v
                                  all_goals try exact Option.noConfusion h
                                  all_goals (injection h with he; subst he; refine ⟨?_, ?_, ?_, ?_, ?_, ?_, ?_, ?_, ?_, ?_, ?_, ?_, ?_, ?_, ?_, ?_, ?_, ?_, ?_⟩ <;> (intro hk; first | rfl | exact absurd (beq_iff_eq.mp (by assumption)) hk))
                                · rw [if_neg h16] at h
                                  by_cases h17 : (k == "times_correct") = true
                                  · rw [if_pos h17] at h
                                    cases v
                                    all_goals try exact Option.noConfusion h
                                    all_goals (injection h with he; subst he; refine ⟨?_, ?_, ?_, ?_, ?_, ?_, ?_, ?_, ?_, ?_, ?_, ?_, ?_, ?_, ?_, ?_, ?_, ?_, ?_⟩ <;> (intro hk; first | rfl | exact absurd (beq_iff_eq.mp (by assumption)) hk))
                                  · rw [if_neg h17] at h
                                    by_cases h18 : (k == "avg_time_seconds") = true
                                    · rw [if_pos h18] at h
                                      cases v
                                      all_goals try exact Option.noConfusion h
                                      all_goals (injection h with he; subst he; refine ⟨?_, ?_, ?_, ?_, ?_, ?_, ?_, ?_, ?_, ?_, ?_, ?_, ?_, ?_, ?_, ?_, ?_, ?_, ?_⟩ <;> (intro hk; first | rfl | exact absurd (beq_iff_eq.mp (by assumption)) hk))
                                    · rw [if_neg h18] at h
                                      by_cases h19 : (k == "discrimination_index") = true
                                      · rw [if_pos h19] at h
                                        cases v
                                        all_goals try exact Option.noConfusion h
                                        all_goals (injection h with he; subst he; refine ⟨?_, ?_, ?_, ?_, ?_, ?_, ?_, ?_, ?_, ?_, ?_, ?_, ?_, ?_, ?_, ?_, ?_, ?_, ?_⟩ <;> (intro hk; first | rfl | exact absurd (beq_iff_eq.mp (by assumption)) hk))
                                      · rw [if_neg h19] at h
                                        exact Option.noConfusion h

theorem setColumn_updated_at (qn : Question) (n : Int) :
    setColumn qn "updated_at" (Value.vInt n) = some { qn with updatedAt := n } :=
  rfl

theorem applyColumns_frame {kvs : List (String × Value)} :
    ∀ {qn q2 : Question}, applyColumns qn kvs = some q2 →
      ("id" ∉ kvs.map Prod.fst → q2.id = qn.id) ∧
      ("bank_id" ∉ kvs.map Prod.fst → q2.bankId = qn.bankId) ∧
      ("question_type" ∉ kvs.map Prod.fst → q2.questionType = qn.questionType) ∧
      ("stem" ∉ kvs.map Prod.fst → q2.stem = qn.stem) ∧
      ("options" ∉ kvs.map Prod.fst → q2.options = qn.options) ∧
      ("correct_answer" ∉ kvs.map Prod.fst → q2.correctAnswer = qn.correctAnswer) ∧
      ("explanation" ∉ kvs.map Prod.fst → q2.explanation = qn.explanation) ∧
      ("difficulty" ∉ kvs.map Prod.fst → q2.difficulty = qn.difficulty) ∧
      ("bloom_level" ∉ kvs.map Prod.fst → q2.bloomLevel = qn.bloomLevel) ∧
      ("estimated_time_seconds" ∉ kvs.map Prod.fst → q2.estimatedTimeSeconds = qn.estimatedTimeSeconds) ∧
      ("points" ∉ kvs.map Prod.fst → q2.points = qn.points) ∧
      ("status" ∉ kvs.map Prod.fst → q2.status = qn.status) ∧
      ("author" ∉ kvs.map Prod.fst → q2.author = qn.author) ∧
      ("created_at" ∉ kvs.map Prod.fst → q2.createdAt = qn.createdAt) ∧
      ("updated_at" ∉ kvs.map Prod.fst → q2.updatedAt = qn.updatedAt) ∧
      ("times_used" ∉ kvs.map Prod.fst → q2.timesUsed = qn.timesUsed) ∧
      ("times_correct" ∉ kvs.map Prod.fst → q2.timesCorrect = qn.timesCorrect) ∧
      ("avg_time_seconds" ∉ kvs.map Prod.fst → q2.avgTimeSeconds = qn.avgTimeSeconds) ∧
      ("discrimination_index" ∉ kvs.map Prod.fst → q2.discriminationIndex = qn.discriminationIndex) := by
  induction kvs with
  | nil =>
    intro qn q2 h
    simp only [applyColumns, Option.some.injEq] at h
    subst h
    exact ⟨fun _ => rfl, fun _ => rfl, fun _ => rfl, fun _ => rfl, fun _ => rfl, fun _ => rfl, fun _ => rfl, fun _ => rfl, fun _ => rfl, fun _ => rfl, fun _ => rfl, fun _ => rfl, fun _ => rfl, fun _ => rfl, fun _ => rfl, fun _ => rfl, fun _ => rfl, fun _ => rfl, fun _ => rfl⟩
  | cons kv rest ih =>
    intro qn q2 h
    rcases kv with ⟨k, v⟩
    unfold applyColumns at h
    rcases hset : setColumn qn k v with _ | qn1
    · rw [hset] at h
      cases h
    · rw [hset] at h
      dsimp only at h
      have hsplit : ∀ s : String, s ∉ ((k, v) :: rest).map Prod.fst →
          k ≠ s ∧ s ∉ rest.map Prod.fst := by
        intro s hs
        simp only [List.map_cons, List.mem_cons, not_or] at hs
        exact ⟨fun he => hs.1 he.symm, hs.2⟩
      obtain ⟨f1, f2, f3, f4, f5, f6, f7, f8, f9, f10, f11, f12, f13, f14, f15, f16, f17, f18, f19⟩ := setColumn_frame hset
      obtain ⟨r1, r2, r3, r4, r5, r6, r7, r8, r9, r10, r11, r12, r13, r14, r15, r16, r17, r18, r19⟩ := ih h
      exact ⟨fun hn => (r1 (hsplit _ hn).2).trans (f1 (hsplit _ hn).1),
             fun hn => (r2 (hsplit _ hn).2).trans (f2 (hsplit _ hn).1),
             fun hn => (r3 (hsplit _ hn).2).trans (f3 (hsplit _ hn).1),
             fun hn => (r4 (hsplit _ hn).2).trans (f4 (hsplit _ hn).1),
             fun hn => (r5 (hsplit _ hn).2).trans (f5 (hsplit _ hn).1),
             fun hn => (r6 (hsplit _ hn).2).trans (f6 (hsplit _ hn).1),
             fun hn => (r7 (hsplit _ hn).2).trans (f7 (hsplit _ hn).1),
             fun hn => (r8 (hsplit _ hn).2).trans (f8 (hsplit _ hn).1),
             fun hn => (r9 (hsplit _ hn).2).trans (f9 (hsplit _ hn).1),
             fun hn => (r10 (hsplit _ hn).2).trans (f10 (hsplit _ hn).1),
             fun hn => (r11 (hsplit _ hn).2).trans (f11 (hsplit _ hn).1),
             fun hn => (r12 (hsplit _ hn).2).trans (f12 (hsplit _ hn).1),
             fun hn => (r13 (hsplit _ hn).2).trans (f13 (hsplit _ hn).1),
             fun hn => (r14 (hsplit _ hn).2).trans (f14 (hsplit _ hn).1),
             fun hn => (r15 (hsplit _ hn).2).trans (f15 (hsplit _ hn).1),
             fun hn => (r16 (hsplit _ hn).2).trans (f16 (hsplit _ hn).1),
             fun hn => (r17 (hsplit _ hn).2).trans (f17 (hsplit _ hn).1),
             fun hn => (r18 (hsplit _ hn).2).trans (f18 (hsplit _ hn).1),
             fun hn => (r19 (hsplit _ hn).2).trans (f19 (hsplit _ hn).1)⟩

theorem applyColumns_updated_at {kvs : List (String × Value)} :
    ∀ {qn q2 : Question} {n : Int}, (kvs.map Prod.fst).Nodup →
      ("updated_at", Value.vInt n) ∈ kvs →
      applyColumns qn kvs = some q2 → q2.updatedAt = n := by
  induction kvs with
  | nil =>
    intro qn q2 n _ hmem _
    cases hmem
  | cons kv rest ih =>
    intro qn q2 n hnd hmem h
    rcases kv with ⟨k, v⟩
    unfold applyColumns at h
    rcases hset : setColumn qn k v with _ | qn1
    · rw [hset] at h
      cases h
    · rw [hset] at h
      dsimp only at h
      simp only [List.map_cons, List.nodup_cons] at hnd
      rcases List.mem_cons.mp hmem with he | hm
      · have hk : k = "updated_at" := (congrArg Prod.fst he).symm
        have hv : v = Value.vInt n := (congrArg Prod.snd he).symm
        subst hk
        subst hv
        rw [setColumn_updated_at qn n] at hset
        have hqn1 : qn1 = { qn with updatedAt := n } := (Option.some.inj hset).symm
        have hrest : q2.updatedAt = qn1.updatedAt :=
          (applyColumns_frame h).2.2.2.2.2.2.2.2.2.2.2.2.2.2.1 hnd.1
        rw [hrest, hqn1]
      · exact ih hnd.2 hm h

theorem popKey_keys_sublist (kvs : List (String × Value)) (k : String) :
    ((popKey kvs k).2.map Prod.fst).Sublist (kvs.map Prod.fst) := by
  unfold popKey
  rcases h : kvs.find? (fun kv => kv.1 == k) with _ | kv
  · simp only [h]
    exact List.Sublist.refl _
  · simp only [h]
    exact List.Sublist.map Prod.fst (List.filter_sublist kvs)

theorem dictSet_mem (kvs : List (String × Value)) (k : String) (v : Value) :
    (k, v) ∈ dictSet kvs k v := by
  unfold dictSet
  split_ifs with hp
  · rcases List.any_eq_true.mp hp with ⟨kv, hkv, hc⟩
    have hmem := List.mem_map_of_mem
      (fun kv2 => if kv2.1 == k then (k, v) else kv2) hkv
    dsimp only at hmem
    rw [if_pos hc] at hmem
    exact hmem
  · exact List.mem_append_right _ (by simp)

theorem dictSet_keys_subset (kvs : List (String × Value)) (k : String) (v : Value) :
    ∀ s, s ∈ (dictSet kvs k v).map Prod.fst → s = k ∨ s ∈ kvs.map Prod.fst := by
  intro s hs
  unfold dictSet at hs
  split_ifs at hs with hp
  · rcases List.mem_map.mp hs with ⟨kv2, hkv2, he⟩
    rcases List.mem_map.mp hkv2 with ⟨kv, hkv, he2⟩
    by_cases hc : (kv.1 == k) = true
    · rw [← he2, if_pos hc] at he
      exact Or.inl he.symm
    · rw [← he2, if_neg hc] at he
      exact Or.inr (he ▸ List.mem_map_of_mem Prod.fst hkv)
  · rw [List.map_append] at hs
    rcases List.mem_append.mp hs with hin | hin
    · exact Or.inr hin
    · exact Or.inl (by simpa using hin)

theorem dictSet_keys_nodup {kvs : List (String × Value)} {k : String} {v : Value}
    (h : (kvs.map Prod.fst).Nodup) : ((dictSet kvs k v).map Prod.fst).Nodup := by
  unfold dictSet
  split_ifs with hp
  · have he : (kvs.map (fun kv => if kv.1 == k then (k, v) else kv)).map Prod.fst =
        kvs.map Prod.fst := by
      rw [List.map_map]
      apply List.map_congr_left
      intro kv _
      dsimp only [Function.comp]
      by_cases hc : (kv.1 == k) = true
      · rw [if_pos hc]
        exact (beq_iff_eq.mp hc).symm
      · rw [if_neg hc]
    rw [he]
    exact h
  · rw [List.map_append]
    refine List.nodup_append.mpr ⟨h, by simp, ?_⟩
    intro s hs hk
    have hsk : s = k := by simpa using hk
    subst hsk
    rcases List.mem_map.mp hs with ⟨kv, hkv, he⟩
    have : kvs.any (fun kv2 => kv2.1 == s) = true :=
      List.any_eq_true.mpr ⟨kv, hkv, by simp [he]⟩
    exact hp this

theorem get_question_find {st : DbState} {qid : String} {h0 : HydratedQuestion}
    (h : get_question st qid = some h0) :
    st.questions.find? (fun x => x.id == qid) = some h0.question := by
  unfold get_question at h
  rcases hf : st.questions.find? (fun x => x.id == qid) with _ | q
  · rw [hf] at h
    cases h
  · rw [hf] at h
    simp only [Option.some.injEq] at h
    rw [← h]
    exact hf

theorem applyAll_find {qid : String} {kvs : List (String × Value)}
    (hid : "id" ∉ kvs.map Prod.fst) :
    ∀ {rows rows2 : List Question} {q0 : Question},
      applyAll rows qid kvs = Except.ok rows2 →
      rows.find? (fun x => x.id == qid) = some q0 →
      ∃ q2, applyColumns q0 kvs = some q2 ∧
        rows2.find? (fun x => x.id == qid) = some q2 := by
  intro rows
  induction rows with
  | nil =>
    intro rows2 q0 _ hf
    cases hf
  | cons x xs ih =>
    intro rows2 q0 h hf
    unfold applyAll at h
    by_cases hx : (x.id == qid) = true
    · rw [@List.find?_cons_of_pos _ (fun y => y.id == qid) x xs hx] at hf
      have hq0 : x = q0 := Option.some.inj hf
      rw [if_pos hx] at h
      rcases hap : applyColumns x kvs with _ | x2
      · rw [hap] at h
        cases h
      · rw [hap] at h
        dsimp only at h
        rcases hrest : applyAll xs qid kvs with e | xs2
        · rw [hrest] at h
          cases h
        · rw [hrest] at h
          simp only [Except.ok.injEq] at h
          subst h
          refine ⟨x2, by rw [← hq0]; exact hap, ?_⟩
          have hx2id : (x2.id == qid) = true := by
            rw [(applyColumns_frame hap).1 hid]
            exact hx
          rw [@List.find?_cons_of_pos _ (fun y => y.id == qid) x2 xs2 hx2id]
    · rw [@List.find?_cons_of_neg _ (fun y => y.id == qid) x xs hx] at hf
      rw [if_neg hx] at h
      dsimp only at h
      rcases hrest : applyAll xs qid kvs with e | xs2
      · rw [hrest] at h
        cases h
      · rw [hrest] at h
        simp only [Except.ok.injEq] at h
        subst h
        rcases ih hrest hf with ⟨q2, hq2, hfind⟩
        refine ⟨q2, hq2, ?_⟩
        rw [@List.find?_cons_of_neg _ (fun y => y.id == qid) x xs2 hx]
        exact hfind

theorem scalarUpdateStep_ok_nonempty {st st1 : DbState} {qid : String}
    {u2 : List (String × Value)} {now : Int}
    (hne : u2 ≠ [])
    (h : scalarUpdateStep st qid u2 now = Except.ok st1) :
    applyAll st.questions qid (dictSet u2 "updated_at" (Value.vInt now)) =
      Except.ok st1.questions := by
  unfold scalarUpdateStep at h
  rw [if_neg (by simpa using hne)] at h
  dsimp only at h
  split_ifs at h with hall
  rcases hres : applyAll st.questions qid
      (dictSet u2 "updated_at" (Value.vInt now)) with e | rows
  · rw [hres] at h
    cases h
  · rw [hres] at h
    simp only [Except.ok.injEq] at h
    rw [← h]

/-! ## C5: scalar update refreshes the timestamp, frames the rest -/

/-- **C5 (amended).** A successful `update_question` call that supplies at
least one *scalar* field (something left in the kwargs after `topics` and
`tags` are popped) sets the stored question's `updated_at` to the call time,
and every scalar column not supplied keeps its previous value.  (A call that
supplies only `topics`/`tags` runs no UPDATE statement and leaves the
timestamp unchanged — see the counterexample.)  Technical hypotheses: kwargs
keys are unique, as Python guarantees, and the call does not rename `id`, so
the question can be tracked by its id. -/
theorem update_scalar_refresh_and_frame (st st' : DbState)
    (hq : Option HydratedQuestion) (h0 : HydratedQuestion) (qid : String)
    (updates : List (String × Value)) (now : Int)
    (hnodup : (updates.map Prod.fst).Nodup)
    (hid : "id" ∉ updates.map Prod.fst)
    (hscalar : (popKey (popKey updates "topics").2 "tags").2 ≠ [])
    (hold : get_question st qid = some h0)
    (h : update_question st qid updates now = Except.ok (st', hq)) :
    ∃ h1, get_question st' qid = some h1 ∧
      h1.question.updatedAt = now ∧
      h1.question.id = h0.question.id ∧
      ("bank_id" ∉ updates.map Prod.fst → h1.question.bankId = h0.question.bankId) ∧
      ("question_type" ∉ updates.map Prod.fst → h1.question.questionType = h0.question.questionType) ∧
      ("stem" ∉ updates.map Prod.fst → h1.question.stem = h0.question.stem) ∧
      ("options" ∉ updates.map Prod.fst → h1.question.options = h0.question.options) ∧
      ("correct_answer" ∉ updates.map Prod.fst → h1.question.correctAnswer = h0.question.correctAnswer) ∧
      ("explanation" ∉ updates.map Prod.fst → h1.question.explanation = h0.question.explanation) ∧
      ("difficulty" ∉ updates.map Prod.fst → h1.question.difficulty = h0.question.difficulty) ∧
      ("bloom_level" ∉ updates.map Prod.fst → h1.question.bloomLevel = h0.question.bloomLevel) ∧
      ("estimated_time_seconds" ∉ updates.map Prod.fst → h1.question.estimatedTimeSeconds = h0.question.estimatedTimeSeconds) ∧
      ("points" ∉ updates.map Prod.fst → h1.question.points = h0.question.points) ∧
      ("status" ∉ updates.map Prod.fst → h1.question.status = h0.question.status) ∧
      ("author" ∉ updates.map Prod.fst → h1.question.author = h0.question.author) ∧
      ("created_at" ∉ updates.map Prod.fst → h1.question.createdAt = h0.question.createdAt) ∧
      ("times_used" ∉ updates.map Prod.fst → h1.question.timesUsed = h0.question.timesUsed) ∧
      ("times_correct" ∉ updates.map Prod.fst → h1.question.timesCorrect = h0.question.timesCorrect) ∧
      ("avg_time_seconds" ∉ updates.map Prod.fst → h1.question.avgTimeSeconds = h0.question.avgTimeSeconds) ∧
      ("discrimination_index" ∉ updates.map Prod.fst → h1.question.discriminationIndex = h0.question.discriminationIndex) := by
  obtain ⟨st1, st2, hs, ht, hg, hhq⟩ := update_question_ok_decomp h
  have hsub : (((popKey (popKey updates "topics").2 "tags").2).map
      Prod.fst).Sublist (updates.map Prod.fst) :=
    (popKey_keys_sublist (popKey updates "topics").2 "tags").trans
      (popKey_keys_sublist updates "topics")
  have hu2nodup : (((popKey (popKey updates "topics").2 "tags").2).map
      Prod.fst).Nodup := hnodup.sublist hsub
  have hu3nodup : ((dictSet (popKey (popKey updates "topics").2 "tags").2
      "updated_at" (Value.vInt now)).map Prod.fst).Nodup :=
    dictSet_keys_nodup hu2nodup
  have hkeytrans : ∀ s : String, s ≠ "updated_at" → s ∉ updates.map Prod.fst →
      s ∉ (dictSet (popKey (popKey updates "topics").2 "tags").2 "updated_at"
        (Value.vInt now)).map Prod.fst := by
    intro s hne hnin hmem
    rcases dictSet_keys_subset _ _ _ s hmem with he | hin
    · exact hne he
    · exact hnin (hsub.subset hin)
  have hid3 : "id" ∉ (dictSet (popKey (popKey updates "topics").2 "tags").2
      "updated_at" (Value.vInt now)).map Prod.fst :=
    hkeytrans "id" (by decide) hid
  have happly := scalarUpdateStep_ok_nonempty hscalar hs
  have hfind0 := get_question_find hold
  obtain ⟨q2, happ, hfind1⟩ := applyAll_find hid3 happly hfind0
  have hqs : st'.questions = st1.questions := by
    rw [(tagsStep_preserves hg).1, (topicsStep_preserves ht).1]
  have hfind2 : st'.questions.find? (fun x => x.id == qid) = some q2 := by
    rw [hqs]
    exact hfind1
  unfold get_question
  rw [hfind2]
  exact ⟨_, rfl,
    applyColumns_updated_at hu3nodup (dictSet_mem _ _ _) happ,
    (applyColumns_frame happ).1 hid3,
    fun hn => (applyColumns_frame happ).2.1 (hkeytrans "bank_id" (by decide) hn),
    fun hn => (applyColumns_frame happ).2.2.1 (hkeytrans "question_type" (by decide) hn),
    fun hn => (applyColumns_frame happ).2.2.2.1 (hkeytrans "stem" (by decide) hn),
    fun hn => (applyColumns_frame happ).2.2.2.2.1 (hkeytrans "options" (by decide) hn),
    fun hn => (applyColumns_frame happ).2.2.2.2.2.1 (hkeytrans "correct_answer" (by decide) hn),
    fun hn => (applyColumns_frame happ).2.2.2.2.2.2.1 (hkeytrans "explanation" (by decide) hn),
    fun hn => (applyColumns_frame happ).2.2.2.2.2.2.2.1 (hkeytrans "difficulty" (by decide) hn),
    fun hn => (applyColumns_frame happ).2.2.2.2.2.2.2.2.1 (hkeytrans "bloom_level" (by decide) hn),
    fun hn => (applyColumns_frame happ).2.2.2.2.2.2.2.2.2.1 (hkeytrans "estimated_time_seconds" (by decide) hn),
    fun hn => (applyColumns_frame happ).2.2.2.2.2.2.2.2.2.2.1 (hkeytrans "points" (by decide) hn),
    fun hn => (applyColumns_frame happ).2.2.2.2.2.2.2.2.2.2.2.1 (hkeytrans "status" (by decide) hn),
    fun hn => (applyColumns_frame happ).2.2.2.2.2.2.2.2.2.2.2.2.1 (hkeytrans "author" (by decide) hn),
    fun hn => (applyColumns_frame happ).2.2.2.2.2.2.2.2.2.2.2.2.2.1 (hkeytrans "created_at" (by decide) hn),
    fun hn => (applyColumns_frame happ).2.2.2.2.2.2.2.2.2.2.2.2.2.2.2.1 (hkeytrans "times_used" (by decide) hn),
    fun hn => (applyColumns_frame happ).2.2.2.2.2.2.2.2.2.2.2.2.2.2.2.2.1 (hkeytrans "times_correct" (by decide) hn),
    fun hn => (applyColumns_frame happ).2.2.2.2.2.2.2.2.2.2.2.2.2.2.2.2.2.1 (hkeytrans "avg_time_seconds" (by decide) hn),
    fun hn => (applyColumns_frame happ).2.2.2.2.2.2.2.2.2.2.2.2.2.2.2.2.2.2 (hkeytrans "discrimination_index" (by decide) hn)⟩

/-- Witness for the amended C5: updating only the stem of `q-0001` at time 5
refreshes `updated_at` to 5 and preserves every other scalar column. -/
theorem update_scalar_refresh_and_frame_witness :
    ((([("stem", Value.vStr "New stem")] : List (String × Value)).map Prod.fst).Nodup ∧
     "id" ∉ ([("stem", Value.vStr "New stem")] : List (String × Value)).map Prod.fst ∧
     (popKey (popKey ([("stem", Value.vStr "New stem")] : List (String × Value)) "topics").2 "tags").2 ≠ [] ∧
     get_question stWithQ "q-0001" = some ⟨qBase, [], []⟩ ∧
     update_question stWithQ "q-0001" [("stem", Value.vStr "New stem")] 5 =
       Except.ok (stStemUpdated, get_question stStemUpdated "q-0001")) ∧
    (∃ h1, get_question stStemUpdated "q-0001" = some h1 ∧
      h1.question.updatedAt = 5 ∧
      h1.question.id = (⟨qBase, [], []⟩ : HydratedQuestion).question.id ∧
      ("bank_id" ∉ ([("stem", Value.vStr "New stem")] : List (String × Value)).map Prod.fst → h1.question.bankId = (⟨qBase, [], []⟩ : HydratedQuestion).question.bankId) ∧
      ("question_type" ∉ ([("stem", Value.vStr "New stem")] : List (String × Value)).map Prod.fst → h1.question.questionType = (⟨qBase, [], []⟩ : HydratedQuestion).question.questionType) ∧
      ("stem" ∉ ([("stem", Value.vStr "New stem")] : List (String × Value)).map Prod.fst → h1.question.stem = (⟨qBase, [], []⟩ : HydratedQuestion).question.stem) ∧
      ("options" ∉ ([("stem", Value.vStr "New stem")] : List (String × Value)).map Prod.fst → h1.question.options = (⟨qBase, [], []⟩ : HydratedQuestion).question.options) ∧
      ("correct_answer" ∉ ([("stem", Value.vStr "New stem")] : List (String × Value)).map Prod.fst → h1.question.correctAnswer = (⟨qBase, [], []⟩ : HydratedQuestion).question.correctAnswer) ∧
      ("explanation" ∉ ([("stem", Value.vStr "New stem")] : List (String × Value)).map Prod.fst → h1.question.explanation = (⟨qBase, [], []⟩ : HydratedQuestion).question.explanation) ∧
      ("difficulty" ∉ ([("stem", Value.vStr "New stem")] : List (String × Value)).map Prod.fst → h1.question.difficulty = (⟨qBase, [], []⟩ : HydratedQuestion).question.difficulty) ∧
      ("bloom_level" ∉ ([("stem", Value.vStr "New stem")] : List (String × Value)).map Prod.fst → h1.question.bloomLevel = (⟨qBase, [], []⟩ : HydratedQuestion).question.bloomLevel) ∧
      ("estimated_time_seconds" ∉ ([("stem", Value.vStr "New stem")] : List (String × Value)).map Prod.fst → h1.question.estimatedTimeSeconds = (⟨qBase, [], []⟩ : HydratedQuestion).question.estimatedTimeSeconds) ∧
      ("points" ∉ ([("stem", Value.vStr "New stem")] : List (String × Value)).map Prod.fst → h1.question.points = (⟨qBase, [], []⟩ : HydratedQuestion).question.points) ∧
      ("status" ∉ ([("stem", Value.vStr "New stem")] : List (String × Value)).map Prod.fst → h1.question.status = (⟨qBase, [], []⟩ : HydratedQuestion).question.status) ∧
      ("author" ∉ ([("stem", Value.vStr "New stem")] : List (String × Value)).map Prod.fst → h1.question.author = (⟨qBase, [], []⟩ : HydratedQuestion).question.author) ∧
      ("created_at" ∉ ([("stem", Value.vStr "New stem")] : List (String × Value)).map Prod.fst → h1.question.createdAt = (⟨qBase, [], []⟩ : HydratedQuestion).question.createdAt) ∧
      ("times_used" ∉ ([("stem", Value.vStr "New stem")] : List (String × Value)).map Prod.fst → h1.question.timesUsed = (⟨qBase, [], []⟩ : HydratedQuestion).question.timesUsed) ∧
      ("times_correct" ∉ ([("stem", Value.vStr "New stem")] : List (String × Value)).map Prod.fst → h1.question.timesCorrect = (⟨qBase, [], []⟩ : HydratedQuestion).question.timesCorrect) ∧
      ("avg_time_seconds" ∉ ([("stem", Value.vStr "New stem")] : List (String × Value)).map Prod.fst → h1.question.avgTimeSeconds = (⟨qBase, [], []⟩ : HydratedQuestion).question.avgTimeSeconds) ∧
      ("discrimination_index" ∉ ([("stem", Value.vStr "New stem")] : List (String × Value)).map Prod.fst → h1.question.discriminationIndex = (⟨qBase, [], []⟩ : HydratedQuestion).question.discriminationIndex)) :=
  ⟨⟨by decide, by decide, by decide, rfl, rfl⟩,
   update_scalar_refresh_and_frame stWithQ stStemUpdated
     (get_question stStemUpdated "q-0001") ⟨qBase, [], []⟩ "q-0001"
     [("stem", Value.vStr "New stem")] 5 (by decide) (by decide) (by decide)
     rfl rfl⟩
